import Mathlib

/-!
Shallow embedding of the CyFlowRec serial-file receiver (cyflowrec.c,
version 0.3.0) and proofs about its receive loop `recv_loop`.

The embedding models the loop body of `recv_loop` as a pure transition
function `step` on a `Machine` record holding the loop's local variables
(`state`, `file_fd`/`file_open`, `rcv_file_name`, `rcv_file_size`,
`storage_file_path`, `buf`/`buf_data_len`, `requested_reading_len`,
`timeout_ms`, `total_rcv_file_bytes`, `discard_message_logged`), plus the
observable effects: the log lines emitted (`log`) and the destination
filesystem (`fs`, a path-to-contents association list standing for the
files under the storage directory).

One call to `read_timeout` is one `Event`: either `timeout` (a read that
returned zero bytes) or `chunk data ox` (a read that returned
`data.length` bytes, written at `buf + buf_data_len`; `ox` carries the
outcomes of the destination-side `open`/`write` system calls performed in
that iteration, which are inputs of the environment, not of the program).
A fatal read error (-1) exits the loop; the cleanup after the loop is
`exit_cleanup`.

Bytes are modelled as `Char` (the serial line delivers bytes; all the
characters the protocol inspects are ASCII).  C strings are byte lists;
NUL-termination effects of `strcmp`/`strtol`/`my_strdup` on the
accumulation buffer are modelled explicitly via `cstr`.
-/

namespace CyFlowRec

/-- NUL byte, the C string terminator. -/
def nul : Char := Char.ofNat 0

/-- Bytes of a buffer up to (excluding) the first NUL, i.e. the C string
the buffer denotes when read by `strcmp`, `strtol` or `my_strdup`. -/
def cstr (s : List Char) : List Char := s.takeWhile (fun c => c != nul)

/-- C `isdigit` for ASCII bytes ('0'..'9'). -/
def isdigitC (c : Char) : Bool := 48 ≤ c.toNat && c.toNat ≤ 57

/-- C `isupper` for ASCII bytes ('A'..'Z'). -/
def isupperC (c : Char) : Bool := 65 ≤ c.toNat && c.toNat ≤ 90

/-- C `islower` for ASCII bytes ('a'..'z'). -/
def islowerC (c : Char) : Bool := 97 ≤ c.toNat && c.toNat ≤ 122

/-- C `isspace` in the default locale: space, \t, \n, \v, \f, \r. -/
def isspaceC (c : Char) : Bool := c.toNat == 32 || (9 ≤ c.toNat && c.toNat ≤ 13)

/-- Character allowed in a received FILENAME (cyflowrec.c:316):
'.'; or a digit, uppercase or lowercase ASCII letter. -/
def filename_char_ok (c : Char) : Bool :=
  c == '.' || isdigitC c || isupperC c || islowerC c

/-- LONG_MAX on the 64-bit targets the program is built for. -/
def LONG_MAX : Int := 2 ^ 63 - 1

/-- LONG_MIN on the 64-bit targets the program is built for. -/
def LONG_MIN : Int := -(2 ^ 63)

/-- Numeric value of a digit string (most significant first). -/
def digitsVal (s : List Char) : Nat :=
  s.foldl (fun a c => a * 10 + (c.toNat - 48)) 0

/-- C `strtol(s, &endptr, 10)` on the byte list `s` (which stands for a
NUL-terminated string: a NUL inside `s` stops the scan because it is
neither a space, a sign nor a digit).  Returns the parsed value (clamped
to `[LONG_MIN, LONG_MAX]` on overflow, as glibc does) and the number of
bytes consumed (`endptr - s`); if no digits are found, no conversion is
performed and `endptr = s`, i.e. zero bytes are consumed. -/
def strtol10 (s : List Char) : Int × Nat :=
  let ws := s.takeWhile isspaceC
  let r1 := s.drop ws.length
  let sgn : Int × Nat × List Char :=
    match r1 with
    | c :: rest =>
        if c = '-' then (-1, 1, rest)
        else if c = '+' then (1, 1, rest)
        else (1, 0, r1)
    | [] => (1, 0, [])
  let ds := sgn.2.2.takeWhile isdigitC
  if ds = [] then (0, 0)
  else
    let v : Int := sgn.1 * (digitsVal ds : Int)
    let clamped := if v > LONG_MAX then LONG_MAX else if v < LONG_MIN then LONG_MIN else v
    (clamped, ws.length + sgn.2.1 + ds.length)

/-- Log priorities (enum log_priority). -/
inductive log_priority where
  | LOG_ERROR | LOG_WARNING | LOG_INFO | LOG_DEBUG
deriving DecidableEq, Repr

/-- The distinct log lines `recv_loop` can emit, one constructor per call
site of `log_msg`/`log_fmtmsg` inside the loop, carrying the formatted-in
arguments (the `%s`/`%u` parameters that vary). -/
inductive LogMsg where
  | timeoutIncomplete                                          -- "Timeout, data reception not completed"
  | discardStopped                                             -- "Discarding of received data stopped. ..."
  | unexpectedChar                                             -- "Unexpected character received"
  | startReceiving                                             -- "Start receiving"
  | filenameAgain                                              -- "Received FILENAME key again"
  | filesizeBeforeFilename                                     -- "Received FILESIZE key before FILENAME"
  | filesizeAgain                                              -- "Received FILESIZE key again"
  | unknownKey (k : List Char)                                 -- "Received unknown key: %s"
  | keyTooLong                                                 -- "Received key name is too long"
  | badFilename (v : List Char)                                -- "Received FILENAME contains forbidden characters: %s"
  | filenameOk (v : List Char)                                 -- "Received FILENAME: %s"
  | filenameTooLong                                            -- "Received FILENAME is too long"
  | invalidFilesize (v : List Char)                            -- "Received invalid FILESIZE: %s"
  | filesizeOk (v : List Char)                                 -- "Received FILESIZE: %s"
  | filesizeTooLong                                            -- "Received FILESIZE is too long"
  | missingFilesize                                            -- "Missing FILESIZE"
  | incomingFile (n : List Char) (sz : Nat) (p : List Char)    -- "Incoming file \"%s\" with length %u ..."
  | fileExistsReplace (p n : List Char)                        -- "... already exists ... will be replaced ..."
  | fileExistsDrop (p n : List Char)                           -- "... already exists ... will be dropped"
  | cannotOpen (p n : List Char)                               -- "Cannot open/create file ..."
  | cannotWrite (p n : List Char)                              -- "Cannot write to file ... will be truncated ..."
  | fileSaved (n p : List Char)                                -- "The file \"%s\" was received and saved as \"%s\""
  | fileDiscarded (n : List Char)                              -- "The file \"%s\" was received but discarded or truncated"
  | startDiscarding                                            -- "Start discarding received data until the no-data timeout expires"
deriving DecidableEq, Repr

/-- enum storage_file_exists_policy. -/
inductive storage_file_exists_policy where
  | FILE_REPLACE | FILE_DROP
deriving DecidableEq, Repr

/-- The configuration `recv_loop` reads (the globals set by `main`). -/
structure Config where
  storage_dir : List Char
  storage_create_dirs : Bool
  file_exists_policy : storage_file_exists_policy
deriving DecidableEq, Repr

/-- enum read_state of `recv_loop`. -/
inductive read_state where
  | READ_START
  | READ_NEXT
  | READ_KEY
  | READ_FILE_NAME
  | READ_FILE_SIZE
  | READ_UNKNOWN_VALUE
  | READ_FILE
  | READ_DISCARD_UNTIL_TIMEOUT
deriving DecidableEq, Repr

/-- The loop state of `recv_loop` plus its observable effects.
`file_open` models `file_fd != -1`; `buf` holds the `buf_data_len` live
bytes `buf[0 .. buf_data_len)` (so `buf.length` is `buf_data_len`);
`timeout_infinite` models `timeout_ms == -1` (the only two values used
are -1 and 1000); `log` is the list of emitted log lines, oldest first;
`fs` maps a destination path to the bytes of the file at that path. -/
structure Machine where
  state : read_state
  file_open : Bool
  rcv_file_name : Option (List Char)
  rcv_file_size : Nat
  storage_file_path : Option (List Char)
  buf : List Char
  requested_reading_len : Nat
  timeout_infinite : Bool
  total_rcv_file_bytes : Nat
  discard_message_logged : Bool
  log : List (log_priority × LogMsg)
  fs : List (List Char × List Char)
deriving DecidableEq, Repr

/-- Outcomes of the destination-side system calls of one loop iteration;
these are environment inputs.  `open_err` : the exclusive `open` at
cyflowrec.c:390 fails with an errno other than EEXIST (permissions, I/O);
whether it fails with EEXIST is decided by `fs` itself.  `reopen_err` :
the truncating re-open at cyflowrec.c:402 fails.  `wfail = some p` : the
write loop at cyflowrec.c:437-451 hits a `write` returning -1 after `p`
bytes of the buffer were already written; `wfail = none` : every `write`
succeeds and the loop writes the whole buffer. -/
structure SysOracle where
  open_err : Bool
  reopen_err : Bool
  wfail : Option Nat
deriving DecidableEq, Repr

/-- Environment input of one loop iteration: the result of the
`read_timeout` call (zero bytes = silence timeout, or a chunk of
`data.length` bytes stored at `buf + buf_data_len`) together with the
system-call outcomes for that iteration. -/
inductive Event where
  | timeout
  | chunk (data : List Char) (ox : SysOracle)
deriving DecidableEq, Repr

/-- A chunk event is realizable when the read returned between 1 and
`requested_reading_len` bytes. -/
def eventValid (m : Machine) : Event → Prop
  | .timeout => True
  | .chunk data _ => 1 ≤ data.length ∧ data.length ≤ m.requested_reading_len

/-- Oracle for iterations in which every destination system call succeeds. -/
def okSys : SysOracle := ⟨false, false, none⟩

/-- Lookup of a path in the destination filesystem. -/
def fsLookup : List (List Char × List Char) → List Char → Option (List Char)
  | [], _ => none
  | (p, v) :: rest, q => if p = q then some v else fsLookup rest q

/-- Create or replace the file at a path. -/
def fsSet : List (List Char × List Char) → List Char → List Char → List (List Char × List Char)
  | [], q, w => [(q, w)]
  | (p, v) :: rest, q, w => if p = q then (q, w) :: rest else (p, v) :: fsSet rest q w

/-- Append bytes to the file at a path (the effect of a successful
`write` on the open destination descriptor). -/
def fsAppend (fs : List (List Char × List Char)) (p d : List Char) :
    List (List Char × List Char) :=
  fsSet fs p ((fsLookup fs p).getD [] ++ d)

/-- Append one line to the log. -/
def emit (m : Machine) (p : log_priority) (msg : LogMsg) : Machine :=
  { m with log := m.log ++ [(p, msg)] }

/-- The common error-recovery move (e.g. cyflowrec.c:284-286):
`state = READ_DISCARD_UNTIL_TIMEOUT; buf_data_len = 0;
requested_reading_len = sizeof(buf)`. -/
def toDiscard (m : Machine) : Machine :=
  { m with state := .READ_DISCARD_UNTIL_TIMEOUT, buf := [], requested_reading_len := 128 }

/-- Destination path `sprintf_malloc("%s/%s", storage_dir, rcv_file_name)`. -/
def mkPath (dir nm : List Char) : List Char := dir ++ '/' :: nm

/-- `requested_reading_len` computed at cyflowrec.c:427-428 when payload
streaming starts: one payload byte is already in `buf`, so request the
rest, capped at `sizeof(buf) - 1`. -/
def payloadReq (size : Nat) : Nat :=
  let bytes_to_end := size - 1
  if bytes_to_end > 127 then 127 else bytes_to_end

/-- The destination-file creation of cyflowrec.c:390-423.  Exclusive
create; on EEXIST consult `file_exists_policy`: REPLACE re-opens the
path truncating it (so the stored file becomes empty at once), DROP
leaves the descriptor closed.  Any other failure (or a failing
truncating re-open) logs "Cannot open/create" and leaves the descriptor
closed; `mkdirs` (cyflowrec.c:387-389) only creates directories and
never changes any file, so it has no effect on `fs`. -/
def openDest (cfg : Config) (m : Machine) (path nm : List Char) (ox : SysOracle) : Machine :=
  if ox.open_err then
    emit m .LOG_ERROR (.cannotOpen path nm)
  else if (fsLookup m.fs path).isSome then
    if cfg.file_exists_policy = .FILE_REPLACE then
      let m1 := emit m .LOG_WARNING (.fileExistsReplace path nm)
      if ox.reopen_err then emit m1 .LOG_ERROR (.cannotOpen path nm)
      else { m1 with file_open := true, fs := fsSet m1.fs path [] }
    else
      emit m .LOG_WARNING (.fileExistsDrop path nm)
  else
    { m with file_open := true, fs := fsSet m.fs path [] }

/-- One iteration of the `while (true)` loop of `recv_loop`
(cyflowrec.c:225-487), for a read that did not fail fatally. -/
def step (cfg : Config) (m : Machine) (ev : Event) : Machine :=
  match ev with
  | .timeout =>
      -- cyflowrec.c:232-256
      let m1 := if m.state ≠ .READ_START ∧ m.state ≠ .READ_DISCARD_UNTIL_TIMEOUT then
          emit m .LOG_ERROR .timeoutIncomplete
        else m
      let m2 := if m.state = .READ_DISCARD_UNTIL_TIMEOUT then
          emit m1 .LOG_INFO .discardStopped
        else m1
      { m2 with
        file_open := false
        storage_file_path := none
        rcv_file_name := none
        rcv_file_size := 0
        buf := []
        requested_reading_len := 1
        timeout_infinite := true
        state := .READ_START }
  | .chunk data ox =>
      match m.state with
      | .READ_START =>
          -- cyflowrec.c:260-269 (examines buf[0])
          if (m.buf ++ data).headD nul ≠ '[' then
            emit m .LOG_ERROR .unexpectedChar
          else
            let m1 := emit m .LOG_INFO .startReceiving
            { m1 with
              discard_message_logged := false
              timeout_infinite := false
              state := .READ_KEY }
      | .READ_KEY =>
          -- cyflowrec.c:270-310 (examines buf[buf_data_len], the byte just read)
          let c := data.headD nul
          if c = ']' then
            let key := cstr m.buf
            if key = "FILENAME".toList then
              let m1 := if m.rcv_file_name.isSome then
                  { (emit m .LOG_WARNING .filenameAgain) with
                    rcv_file_name := none, rcv_file_size := 0 }
                else m
              { m1 with state := .READ_FILE_NAME, buf := [] }
            else if key = "FILESIZE".toList then
              if m.rcv_file_name = none then
                toDiscard (emit m .LOG_ERROR .filesizeBeforeFilename)
              else if m.rcv_file_size > 0 then
                toDiscard (emit m .LOG_ERROR .filesizeAgain)
              else
                { m with state := .READ_FILE_SIZE, buf := [] }
            else
              { (emit m .LOG_DEBUG (.unknownKey key)) with
                state := .READ_UNKNOWN_VALUE, buf := [] }
          else
            let buf1 := m.buf ++ [c]
            if buf1.length ≥ 128 then toDiscard (emit m .LOG_ERROR .keyTooLong)
            else { m with buf := buf1 }
      | .READ_FILE_NAME =>
          -- cyflowrec.c:311-338
          let c := data.headD nul
          if c = '>' then
            let value := cstr (m.buf.drop 1)
            if value.all filename_char_ok then
              { (emit m .LOG_DEBUG (.filenameOk value)) with
                rcv_file_name := some value, state := .READ_NEXT, buf := [] }
            else
              toDiscard (emit m .LOG_ERROR (.badFilename value))
          else
            let buf1 := m.buf ++ [c]
            if buf1.length ≥ 128 then toDiscard (emit m .LOG_ERROR .filenameTooLong)
            else { m with buf := buf1 }
      | .READ_FILE_SIZE =>
          -- cyflowrec.c:339-363
          let c := data.headD nul
          if c = '>' then
            let text := m.buf.drop 1
            let r := strtol10 text
            if r.1 < 0 ∨ 1 + r.2 ≠ m.buf.length then
              toDiscard (emit m .LOG_ERROR (.invalidFilesize (cstr text)))
            else
              { (emit m .LOG_DEBUG (.filesizeOk (cstr text))) with
                rcv_file_size := r.1.toNat, state := .READ_NEXT, buf := [] }
          else
            let buf1 := m.buf ++ [c]
            if buf1.length ≥ 128 then toDiscard (emit m .LOG_ERROR .filesizeTooLong)
            else { m with buf := buf1 }
      | .READ_UNKNOWN_VALUE =>
          -- cyflowrec.c:364-368 (buf_data_len stays 0, content is discarded)
          if data.headD nul = '>' then { m with state := .READ_NEXT } else m
      | .READ_NEXT =>
          -- cyflowrec.c:369-430 (examines buf[0])
          if (m.buf ++ data).headD nul = '[' then
            { m with state := .READ_KEY }
          else if m.rcv_file_size = 0 then
            toDiscard (emit m .LOG_ERROR .missingFilesize)
          else
            let nm := m.rcv_file_name.getD []
            let path := mkPath cfg.storage_dir nm
            let m1 := { m with storage_file_path := some path }
            let m2 := emit m1 .LOG_INFO (.incomingFile nm m.rcv_file_size path)
            let m3 := openDest cfg m2 path nm ox
            { m3 with
              state := .READ_FILE
              buf := (m.buf ++ data).take 1
              total_rcv_file_bytes := 0
              requested_reading_len := payloadReq m.rcv_file_size }
      | .READ_FILE =>
          -- cyflowrec.c:431-479
          let full := m.buf ++ data
          let total := m.total_rcv_file_bytes + full.length
          let path := m.storage_file_path.getD []
          let nm := m.rcv_file_name.getD []
          let m1 :=
            if m.file_open then
              match ox.wfail with
              | none => { m with fs := fsAppend m.fs path full }
              | some p =>
                  { (emit m .LOG_ERROR (.cannotWrite path nm)) with
                    file_open := false, fs := fsAppend m.fs path (full.take p) }
            else m
          let m2 := { m1 with buf := [], total_rcv_file_bytes := total }
          if total ≥ m.rcv_file_size then
            if m2.file_open then
              { (emit m2 .LOG_INFO (.fileSaved nm path)) with
                file_open := false
                storage_file_path := none
                rcv_file_name := none
                rcv_file_size := 0
                requested_reading_len := 1
                timeout_infinite := true
                state := .READ_START }
            else
              { (emit m2 .LOG_INFO (.fileDiscarded nm)) with
                storage_file_path := none
                rcv_file_name := none
                rcv_file_size := 0
                requested_reading_len := 1
                timeout_infinite := true
                state := .READ_START }
          else
            { m2 with requested_reading_len := min (m.rcv_file_size - total) 128 }
      | .READ_DISCARD_UNTIL_TIMEOUT =>
          -- cyflowrec.c:480-485
          if m.discard_message_logged then m
          else { (emit m .LOG_WARNING .startDiscarding) with discard_message_logged := true }

/-- The machine at the `while (true)` loop entry (cyflowrec.c:203-224),
for a given initial content of the storage directory. -/
def initM (fs0 : List (List Char × List Char)) : Machine :=
  { state := .READ_START
    file_open := false
    rcv_file_name := none
    rcv_file_size := 0
    storage_file_path := none
    buf := []
    requested_reading_len := 1
    timeout_infinite := true
    total_rcv_file_bytes := 0
    discard_message_logged := false
    log := []
    fs := fs0 }

/-- Run the loop over a list of read results. -/
def run (cfg : Config) (m : Machine) (evs : List Event) : Machine :=
  evs.foldl (step cfg) m

/-- The cleanup after the loop exits on a fatal read error
(cyflowrec.c:489-498): close the destination descriptor if open, free
the path and the pending filename. -/
def exit_cleanup (m : Machine) : Machine :=
  { m with file_open := false, storage_file_path := none, rcv_file_name := none }

/-- Every event of the list is a realizable read result at the point it
is consumed. -/
def TraceValid (cfg : Config) : Machine → List Event → Prop
  | _, [] => True
  | m, e :: es => eventValid m e ∧ TraceValid cfg (step cfg m e) es

/-- One event per received byte, with all system calls succeeding. -/
def byteEvents (s : List Char) : List Event :=
  s.map (fun c => Event.chunk [c] okSys)

end CyFlowRec

namespace CyFlowRec

/-! ### Basic run and filesystem lemmas -/

theorem run_nil (cfg : Config) (m : Machine) : run cfg m [] = m := rfl

theorem run_cons (cfg : Config) (m : Machine) (e : Event) (evs : List Event) :
    run cfg m (e :: evs) = run cfg (step cfg m e) evs := rfl

theorem run_append (cfg : Config) (m : Machine) (a b : List Event) :
    run cfg m (a ++ b) = run cfg (run cfg m a) b :=
  List.foldl_append _ _ _ _

theorem byteEvents_append (a b : List Char) :
    byteEvents (a ++ b) = byteEvents a ++ byteEvents b :=
  List.map_append _ _ _

theorem fsLookup_fsSet_self (fs : List (List Char × List Char)) (p v : List Char) :
    fsLookup (fsSet fs p v) p = some v := by
  induction fs with
  | nil => simp [fsSet, fsLookup]
  | cons hd tl ih =>
      obtain ⟨q, w⟩ := hd
      by_cases h : q = p
      · simp [fsSet, fsLookup, h]
      · simp [fsSet, fsLookup, h, ih]

theorem fsSet_fsSet (fs : List (List Char × List Char)) (p v w : List Char) :
    fsSet (fsSet fs p v) p w = fsSet fs p w := by
  induction fs with
  | nil => simp [fsSet]
  | cons hd tl ih =>
      obtain ⟨q, u⟩ := hd
      by_cases h : q = p
      · simp [fsSet, h]
      · simp [fsSet, h, ih]

/-- The idle shape of the machine: the loop-top state in `READ_START`
with no in-flight session, unit read length and infinite timeout (the
shape of `initM`, of the machine after a silence timeout, and of the
machine after a completed file). -/
abbrev IdleLike (m : Machine) : Prop :=
  m.state = .READ_START ∧ m.file_open = false ∧ m.rcv_file_name = none ∧
  m.rcv_file_size = 0 ∧ m.storage_file_path = none ∧ m.buf = [] ∧
  m.requested_reading_len = 1 ∧ m.timeout_infinite = true

/-! ### Claim C2: timeout aborts the in-flight session -/

/-- What one silence timeout does, in every state (cyflowrec.c:232-257). -/
theorem step_timeout_spec (cfg : Config) (m : Machine) :
    step cfg m .timeout =
      { m with
        file_open := false
        storage_file_path := none
        rcv_file_name := none
        rcv_file_size := 0
        buf := []
        requested_reading_len := 1
        timeout_infinite := true
        state := .READ_START
        log := m.log ++
          ((if m.state ≠ .READ_START ∧ m.state ≠ .READ_DISCARD_UNTIL_TIMEOUT then
              [(.LOG_ERROR, .timeoutIncomplete)] else []) ++
           (if m.state = .READ_DISCARD_UNTIL_TIMEOUT then
              [(.LOG_INFO, .discardStopped)] else [])) } := by
  by_cases hs : m.state = .READ_START
  · simp [step, hs, emit]
  · by_cases hd : m.state = .READ_DISCARD_UNTIL_TIMEOUT
    · simp [step, hs, hd, emit]
    · simp [step, hs, hd, emit]

/-- A timeout always lands the machine in the idle shape. -/
theorem timeout_idleLike (cfg : Config) (m : Machine) :
    IdleLike (step cfg m .timeout) := by
  rw [step_timeout_spec]
  exact ⟨rfl, rfl, rfl, rfl, rfl, rfl, rfl, rfl⟩

/-- C2.  In every state of the receive loop, a read returning zero bytes
(silence timeout) aborts the whole in-flight session: the destination
handle is released, the pending filename, size, destination path and the
buffer length are all reset, "Timeout, data reception not completed" is
logged at ERROR level exactly when the machine was neither idle
(`READ_START`) nor discarding (`READ_DISCARD_UNTIL_TIMEOUT`), and the
machine returns to `READ_START` with `requested_reading_len = 1` and the
timeout reset to infinite.  The stored files and previously written log
lines are untouched (cyflowrec.c:232-257). -/
theorem recv_C2_timeout_aborts_session (cfg : Config) (m : Machine) :
    step cfg m .timeout =
      { m with
        file_open := false
        storage_file_path := none
        rcv_file_name := none
        rcv_file_size := 0
        buf := []
        requested_reading_len := 1
        timeout_infinite := true
        state := .READ_START
        log := m.log ++
          ((if m.state ≠ .READ_START ∧ m.state ≠ .READ_DISCARD_UNTIL_TIMEOUT then
              [(.LOG_ERROR, .timeoutIncomplete)] else []) ++
           (if m.state = .READ_DISCARD_UNTIL_TIMEOUT then
              [(.LOG_INFO, .discardStopped)] else [])) } :=
  step_timeout_spec cfg m

end CyFlowRec

namespace CyFlowRec

/-! ### Character-class and strtol lemmas -/

theorem takeWhile_eq_self_of_all {p : Char → Bool} :
    ∀ (l : List Char), (∀ c ∈ l, p c = true) → l.takeWhile p = l
  | [], _ => rfl
  | c :: cs, h => by
      have hc := h c (List.mem_cons_self c cs)
      have ih := takeWhile_eq_self_of_all cs (fun d hd => h d (List.mem_cons_of_mem c hd))
      simp [List.takeWhile_cons, hc, ih]

theorem isdigitC_bounds {c : Char} (h : isdigitC c = true) :
    48 ≤ c.toNat ∧ c.toNat ≤ 57 := by
  simpa [isdigitC] using h

theorem isdigitC_not_space {c : Char} (h : isdigitC c = true) : isspaceC c = false := by
  obtain ⟨h1, h2⟩ := isdigitC_bounds h
  simp [isspaceC]
  omega

theorem isdigitC_ne_minus {c : Char} (h : isdigitC c = true) : c ≠ '-' := by
  intro e; subst e; exact absurd h (by decide)

theorem isdigitC_ne_plus {c : Char} (h : isdigitC c = true) : c ≠ '+' := by
  intro e; subst e; exact absurd h (by decide)

/-- `strtol` on a plain nonempty digit string whose value fits in `long`
consumes the whole string and returns its value. -/
theorem strtol10_digits (ds : List Char) (hne : ds ≠ [])
    (hall : ds.all isdigitC = true) (hb : (digitsVal ds : Int) ≤ LONG_MAX) :
    strtol10 ds = ((digitsVal ds : Int), ds.length) := by
  obtain ⟨c, cs, rfl⟩ := List.exists_cons_of_ne_nil hne
  have hdig : ∀ d ∈ c :: cs, isdigitC d = true := by
    intro d hd
    exact List.all_eq_true.mp hall d hd
  have hc : isdigitC c = true := hdig c (by simp)
  have hsp : isspaceC c = false := isdigitC_not_space hc
  have hminus : ¬ (c = '-') := isdigitC_ne_minus hc
  have hplus : ¬ (c = '+') := isdigitC_ne_plus hc
  have htw : (c :: cs).takeWhile isdigitC = c :: cs := takeWhile_eq_self_of_all _ hdig
  have hmin : ¬ ((digitsVal (c :: cs) : Int) < LONG_MIN) := by
    have : (0 : Int) ≤ (digitsVal (c :: cs) : Int) := Int.natCast_nonneg _
    have : LONG_MIN < 0 := by decide
    omega
  simp only [strtol10, List.takeWhile, hsp]
  simp [hminus, hplus, htw, hmin, not_lt.mpr hb]

end CyFlowRec

namespace CyFlowRec

/-- Sample configuration used by concrete instances: storage directory
"store", no directory creation, replace-on-exists. -/
def cfgR : Config := ⟨"store".toList, false, .FILE_REPLACE⟩

/-- Sample drop-on-exists configuration. -/
def cfgDrop : Config := ⟨"store".toList, false, .FILE_DROP⟩

/-! ### Claim C4: FILESIZE value parsing -/

/-- C4 (amended).  For every FILESIZE value token terminated by '>' (the
token bytes are `m.buf`, whose first byte is the opening '<'; `m.buf.tail`
is the value, `buf + 1` in the C), the value is accepted — stored in
`rcv_file_size` and transitioning to `READ_NEXT` (AwaitNextTagOrPayload)
— if and only if C `strtol` base 10 parses the value consuming the whole
token with a non-negative result; the accepted size is the parsed long
(clamped at LONG_MAX on overflow) converted to `size_t`.  This
acceptance is broader than "a non-negative base-10 integer with no extra
characters": leading C whitespace, a '+' sign, '-' before a zero value,
and the empty token (no conversion performed, value 0) are accepted too.
Any other value is an error entering READ_DISCARD_UNTIL_TIMEOUT
(cyflowrec.c:339-354). -/
theorem recv_C4_filesize_value (cfg : Config) (m : Machine) (rest : List Char)
    (ox : SysOracle) (hst : m.state = .READ_FILE_SIZE) :
    ((step cfg m (.chunk ('>' :: rest) ox)).state = .READ_NEXT ↔
      (0 ≤ (strtol10 m.buf.tail).1 ∧ 1 + (strtol10 m.buf.tail).2 = m.buf.length)) ∧
    ((0 ≤ (strtol10 m.buf.tail).1 ∧ 1 + (strtol10 m.buf.tail).2 = m.buf.length) →
      step cfg m (.chunk ('>' :: rest) ox) =
        { (emit m .LOG_DEBUG (.filesizeOk (cstr m.buf.tail))) with
          rcv_file_size := (strtol10 m.buf.tail).1.toNat
          state := .READ_NEXT
          buf := [] }) ∧
    (¬ (0 ≤ (strtol10 m.buf.tail).1 ∧ 1 + (strtol10 m.buf.tail).2 = m.buf.length) →
      step cfg m (.chunk ('>' :: rest) ox) =
        toDiscard (emit m .LOG_ERROR (.invalidFilesize (cstr m.buf.tail)))) := by
  by_cases hacc : 0 ≤ (strtol10 m.buf.tail).1 ∧ 1 + (strtol10 m.buf.tail).2 = m.buf.length
  · have hc1 : ¬ ((strtol10 m.buf.tail).1 < 0) := not_lt.mpr hacc.1
    simp [step, hst, emit, toDiscard, hc1, hacc, hacc.2]
  · rw [not_and_or] at hacc
    rcases hacc with h | h
    · have hc1 : (strtol10 m.buf.tail).1 < 0 := not_le.mp h
      simp [step, hst, emit, toDiscard, hc1]
    · simp [step, hst, emit, toDiscard, h]

/-- C4 counterexample: after `[FILENAME]<A>[FILESIZE]<>` — where the
FILESIZE value is the empty token, which contains no base-10 integer at
all — the loop is in READ_NEXT with `rcv_file_size = 0` instead of
having entered READ_DISCARD_UNTIL_TIMEOUT. -/
theorem recv_C4_cex :
    (run cfgR (initM []) (byteEvents ("[FILENAME]<A>[FILESIZE]<>".toList))).state =
        .READ_NEXT ∧
    (run cfgR (initM []) (byteEvents ("[FILENAME]<A>[FILESIZE]<>".toList))).rcv_file_size
        = 0 := by
  decide

/-- Sample machine awaiting the end of a FILESIZE value "12". -/
def mFS : Machine :=
  { initM [] with state := .READ_FILE_SIZE, buf := "<12".toList, timeout_infinite := false }

theorem recv_C4_filesize_value_witness :
    mFS.state = .READ_FILE_SIZE ∧
    (step cfgR mFS (.chunk ['>'] okSys)).state = .READ_NEXT ∧
    (step cfgR mFS (.chunk ['>'] okSys)).rcv_file_size = 12 := by
  have h := recv_C4_filesize_value cfgR mFS [] okSys rfl
  refine ⟨rfl, h.1.mpr (by decide), ?_⟩
  rw [h.2.1 (by decide)]
  decide

end CyFlowRec

namespace CyFlowRec

/-! ### Claim C5: FILENAME value validation -/

/-- C5 (amended).  For every FILENAME value token terminated by '>' (the
token bytes are `m.buf`; its first accumulated byte, the opening '<', is
skipped, so the value is `m.buf.tail`), the C code validates and stores
the value as a NUL-terminated C string: only the bytes before the first
NUL are inspected and kept (`cstr`).  The name is accepted — stored in
`rcv_file_name` and transitioning to `READ_NEXT` — if and only if every
byte of `cstr m.buf.tail` is a letter, a digit or '.'; forbidden bytes
after an embedded NUL are not detected, and the stored name is the
truncated C string.  On rejection an error is logged and the machine
enters READ_DISCARD_UNTIL_TIMEOUT with the stored files untouched; and
no chunk received while discarding changes the stored files or leaves
READ_DISCARD_UNTIL_TIMEOUT, so no destination file is created for the
rejected block (cyflowrec.c:311-337, 480-485). -/
theorem recv_C5_filename_value (cfg : Config) (m : Machine) (rest : List Char)
    (ox : SysOracle) (hst : m.state = .READ_FILE_NAME) :
    ((step cfg m (.chunk ('>' :: rest) ox)).state = .READ_NEXT ↔
        (cstr m.buf.tail).all filename_char_ok = true) ∧
    ((cstr m.buf.tail).all filename_char_ok = true →
        step cfg m (.chunk ('>' :: rest) ox) =
          { (emit m .LOG_DEBUG (.filenameOk (cstr m.buf.tail))) with
            rcv_file_name := some (cstr m.buf.tail)
            state := .READ_NEXT
            buf := [] }) ∧
    ((cstr m.buf.tail).all filename_char_ok = false →
        step cfg m (.chunk ('>' :: rest) ox) =
          toDiscard (emit m .LOG_ERROR (.badFilename (cstr m.buf.tail)))) ∧
    (∀ (m2 : Machine) (data2 : List Char) (ox2 : SysOracle),
        m2.state = .READ_DISCARD_UNTIL_TIMEOUT →
        (step cfg m2 (.chunk data2 ox2)).fs = m2.fs ∧
        (step cfg m2 (.chunk data2 ox2)).state = .READ_DISCARD_UNTIL_TIMEOUT) := by
  refine ⟨?_, ?_, ?_, ?_⟩
  · by_cases hall : (cstr m.buf.tail).all filename_char_ok = true
    · simp [step, hst, emit, hall]
    · simp [step, hst, emit, toDiscard, hall]
  · intro hall
    simp [step, hst, emit, hall]
  · intro hall
    simp [step, hst, emit, toDiscard, hall]
  · intro m2 data2 ox2 hst2
    by_cases hlogged : m2.discard_message_logged = true
    · simp [step, hst2, hlogged]
    · simp [step, hst2, hlogged, emit]

/-- C5 counterexample: the FILENAME value consisting of the bytes
'A', NUL, '*' contains '*', which is neither a letter, a digit nor '.',
yet the code accepts it (the validation loop stops at the NUL): after
`[FILENAME]<A\0*>` the machine is in READ_NEXT with the truncated name
"A" stored, instead of having rejected the value. -/
theorem recv_C5_cex :
    (run cfgR (initM [])
        (byteEvents ("[FILENAME]<A".toList ++ [nul] ++ "*>".toList))).state =
        .READ_NEXT ∧
    (run cfgR (initM [])
        (byteEvents ("[FILENAME]<A".toList ++ [nul] ++ "*>".toList))).rcv_file_name =
        some ['A'] := by
  decide

/-- Sample machine awaiting the end of a FILENAME value "B*" (the '*' is
forbidden). -/
def mFN : Machine :=
  { initM [] with state := .READ_FILE_NAME, buf := "<B*".toList, timeout_infinite := false }

theorem recv_C5_filename_value_witness :
    mFN.state = .READ_FILE_NAME ∧
    ((cstr mFN.buf.tail).all filename_char_ok = false ∧
      step cfgR mFN (.chunk ['>'] okSys) =
        toDiscard (emit mFN .LOG_ERROR (.badFilename (cstr mFN.buf.tail)))) := by
  have h := recv_C5_filename_value cfgR mFN [] okSys rfl
  exact ⟨rfl, by decide, h.2.2.1 (by decide)⟩

end CyFlowRec

namespace CyFlowRec

/-! ### Token accumulation lemmas -/

theorem run_key_accum (cfg : Config) :
    ∀ (ks : List Char) (m : Machine), m.state = .READ_KEY →
      (∀ c ∈ ks, c ≠ ']') → m.buf.length + ks.length ≤ 127 →
      run cfg m (byteEvents ks) = { m with buf := m.buf ++ ks }
  | [], m, hst, _, _ => by simp [run, byteEvents]
  | c :: cs, m, hst, hne, hlen => by
      have hc : ¬ (c = ']') := hne c (List.mem_cons_self c cs)
      simp only [List.length_cons] at hlen
      have h127 : ¬ (127 ≤ m.buf.length) := by omega
      have hstep : step cfg m (Event.chunk [c] okSys) = { m with buf := m.buf ++ [c] } := by
        simp [step, hst, hc, h127]
      have ih := run_key_accum cfg cs { m with buf := m.buf ++ [c] } hst
        (fun d hd => hne d (List.mem_cons_of_mem c hd)) (by simp; omega)
      show run cfg (step cfg m (Event.chunk [c] okSys)) (byteEvents cs) = _
      rw [hstep, ih]
      simp

theorem run_name_accum (cfg : Config) :
    ∀ (ks : List Char) (m : Machine), m.state = .READ_FILE_NAME →
      (∀ c ∈ ks, c ≠ '>') → m.buf.length + ks.length ≤ 127 →
      run cfg m (byteEvents ks) = { m with buf := m.buf ++ ks }
  | [], m, hst, _, _ => by simp [run, byteEvents]
  | c :: cs, m, hst, hne, hlen => by
      have hc : ¬ (c = '>') := hne c (List.mem_cons_self c cs)
      simp only [List.length_cons] at hlen
      have h127 : ¬ (127 ≤ m.buf.length) := by omega
      have hstep : step cfg m (Event.chunk [c] okSys) = { m with buf := m.buf ++ [c] } := by
        simp [step, hst, hc, h127]
      have ih := run_name_accum cfg cs { m with buf := m.buf ++ [c] } hst
        (fun d hd => hne d (List.mem_cons_of_mem c hd)) (by simp; omega)
      show run cfg (step cfg m (Event.chunk [c] okSys)) (byteEvents cs) = _
      rw [hstep, ih]
      simp

theorem run_size_accum (cfg : Config) :
    ∀ (ks : List Char) (m : Machine), m.state = .READ_FILE_SIZE →
      (∀ c ∈ ks, c ≠ '>') → m.buf.length + ks.length ≤ 127 →
      run cfg m (byteEvents ks) = { m with buf := m.buf ++ ks }
  | [], m, hst, _, _ => by simp [run, byteEvents]
  | c :: cs, m, hst, hne, hlen => by
      have hc : ¬ (c = '>') := hne c (List.mem_cons_self c cs)
      simp only [List.length_cons] at hlen
      have h127 : ¬ (127 ≤ m.buf.length) := by omega
      have hstep : step cfg m (Event.chunk [c] okSys) = { m with buf := m.buf ++ [c] } := by
        simp [step, hst, hc, h127]
      have ih := run_size_accum cfg cs { m with buf := m.buf ++ [c] } hst
        (fun d hd => hne d (List.mem_cons_of_mem c hd)) (by simp; omega)
      show run cfg (step cfg m (Event.chunk [c] okSys)) (byteEvents cs) = _
      rw [hstep, ih]
      simp

theorem run_unknown_skip (cfg : Config) :
    ∀ (vs : List Char) (m : Machine), m.state = .READ_UNKNOWN_VALUE →
      (∀ c ∈ vs, c ≠ '>') →
      run cfg m (byteEvents vs) = m
  | [], _, _, _ => rfl
  | c :: cs, m, hst, hne => by
      have hc : ¬ (c = '>') := hne c (List.mem_cons_self c cs)
      have hstep : step cfg m (Event.chunk [c] okSys) = m := by
        simp [step, hst, hc]
      have ih := run_unknown_skip cfg cs m hst (fun d hd => hne d (List.mem_cons_of_mem c hd))
      show run cfg (step cfg m (Event.chunk [c] okSys)) (byteEvents cs) = m
      rw [hstep, ih]

end CyFlowRec

namespace CyFlowRec

/-! ### Single-step dispatch lemmas -/

theorem step_start_open (cfg : Config) (m : Machine) (rest : List Char) (ox : SysOracle)
    (hst : m.state = .READ_START) (hbuf : m.buf = []) :
    step cfg m (.chunk ('[' :: rest) ox) =
      { m with
        discard_message_logged := false
        timeout_infinite := false
        state := .READ_KEY
        log := m.log ++ [(.LOG_INFO, .startReceiving)] } := by
  simp [step, hst, hbuf, emit]

theorem step_next_open (cfg : Config) (m : Machine) (rest : List Char) (ox : SysOracle)
    (hst : m.state = .READ_NEXT) (hbuf : m.buf = []) :
    step cfg m (.chunk ('[' :: rest) ox) = { m with state := .READ_KEY } := by
  simp [step, hst, hbuf]

theorem step_key_filename (cfg : Config) (m : Machine) (rest : List Char) (ox : SysOracle)
    (hst : m.state = .READ_KEY) (hkey : cstr m.buf = "FILENAME".toList)
    (hname : m.rcv_file_name = none) :
    step cfg m (.chunk (']' :: rest) ox) =
      { m with state := .READ_FILE_NAME, buf := [] } := by
  simp [step, hst, hkey, hname]

theorem step_key_filesize (cfg : Config) (m : Machine) (rest nm : List Char) (ox : SysOracle)
    (hst : m.state = .READ_KEY) (hkey : cstr m.buf = "FILESIZE".toList)
    (hname : m.rcv_file_name = some nm) (hsz : m.rcv_file_size = 0) :
    step cfg m (.chunk (']' :: rest) ox) =
      { m with state := .READ_FILE_SIZE, buf := [] } := by
  have hkey1 : ¬ (cstr m.buf = "FILENAME".toList) := by rw [hkey]; decide
  simp [step, hst, hkey, hkey1, hname, hsz]

theorem step_key_unknown (cfg : Config) (m : Machine) (rest : List Char) (ox : SysOracle)
    (hst : m.state = .READ_KEY) (hk1 : cstr m.buf ≠ "FILENAME".toList)
    (hk2 : cstr m.buf ≠ "FILESIZE".toList) :
    step cfg m (.chunk (']' :: rest) ox) =
      { m with
        state := .READ_UNKNOWN_VALUE
        buf := []
        log := m.log ++ [(.LOG_DEBUG, .unknownKey (cstr m.buf))] } := by
  simp at hk1 hk2
  simp [step, hst, hk1, hk2, emit]

theorem step_unknown_close (cfg : Config) (m : Machine) (rest : List Char) (ox : SysOracle)
    (hst : m.state = .READ_UNKNOWN_VALUE) :
    step cfg m (.chunk ('>' :: rest) ox) = { m with state := .READ_NEXT } := by
  simp [step, hst]

/-! ### Tag wires -/

/-- Bytes of a tag after its opening '[' has been consumed:
`NAME]<VALUE>`. -/
def tagTail (k v : List Char) : List Char := k ++ ']' :: '<' :: v ++ ['>']

/-- Bytes of a whole `[NAME]<VALUE>` tag on the wire. -/
def tagWire (kv : List Char × List Char) : List Char := '[' :: tagTail kv.1 kv.2

/-- Wire bytes of a list of tags. -/
def unknownsWire (us : List (List Char × List Char)) : List Char :=
  (us.map tagWire).flatten

/-- A tag that the dispatcher treats as unknown and that parses as one
token: its name read as a C string is neither FILENAME nor FILESIZE, the
name bytes contain no ']' and fit the 128-byte buffer, and the value
bytes contain no '>'. -/
def UnkOk (kv : List Char × List Char) : Prop :=
  cstr kv.1 ≠ "FILENAME".toList ∧ cstr kv.1 ≠ "FILESIZE".toList ∧
  (∀ c ∈ kv.1, c ≠ ']') ∧ kv.1.length ≤ 127 ∧ (∀ c ∈ kv.2, c ≠ '>')

instance (kv : List Char × List Char) : Decidable (UnkOk kv) := by
  unfold UnkOk; infer_instance

/-- Debug lines produced by a list of unknown tags. -/
def unkLogs (us : List (List Char × List Char)) : List (log_priority × LogMsg) :=
  us.map (fun kv => (.LOG_DEBUG, .unknownKey (cstr kv.1)))

/-! ### Tag-level run lemmas -/

theorem byteEvents_nil : byteEvents [] = [] := rfl

theorem byteEvents_cons (c : Char) (s : List Char) :
    byteEvents (c :: s) = Event.chunk [c] okSys :: byteEvents s := rfl

/-- An unknown tag consumed from `READ_KEY` (after its '[') is logged at
debug level and otherwise invisible: only `state` and `log` move.  Note
`tagTail k v` parses as `(k ++ (']' :: '<' :: v)) ++ ['>']`. -/
theorem run_unknown_tag_key (cfg : Config) (k v : List Char) (m : Machine)
    (hst : m.state = .READ_KEY) (hbuf : m.buf = []) (hok : UnkOk (k, v)) :
    run cfg m (byteEvents (tagTail k v)) =
      { m with
        state := .READ_NEXT
        buf := []
        log := m.log ++ [(.LOG_DEBUG, .unknownKey (cstr k))] } := by
  obtain ⟨hk1, hk2, hkne, hklen, hvne⟩ := hok
  dsimp only at hk1 hk2 hkne hklen hvne
  obtain ⟨st, fo, rnm, rsz, sfp, bf, req, tmo, tot, dml, lg, fss⟩ := m
  simp only at hst hbuf
  subst hst; subst hbuf
  simp only [tagTail]
  rw [byteEvents_append, run_append, byteEvents_append, run_append,
    run_key_accum cfg k _ rfl hkne (by simp; omega)]
  simp only [List.nil_append]
  rw [byteEvents_cons, run_cons,
    step_key_unknown cfg _ [] okSys rfl (by simpa using hk1) (by simpa using hk2)]
  rw [run_unknown_skip cfg ('<' :: v) _ rfl
    (by intro c hc
        rcases List.mem_cons.mp hc with h | h
        · subst h; decide
        · exact hvne c h)]
  rw [byteEvents_cons, run_cons, byteEvents_nil, run_nil]
  exact step_unknown_close cfg _ [] okSys rfl

end CyFlowRec

namespace CyFlowRec

/-! ### Helper facts about filename and digit characters -/

theorem filename_char_ok_ne_gt {c : Char} (h : filename_char_ok c = true) : c ≠ '>' := by
  intro e; subst e; exact absurd h (by decide)

theorem filename_char_ok_ne_nul {c : Char} (h : filename_char_ok c = true) : c ≠ nul := by
  intro e; subst e; exact absurd h (by decide)

theorem isdigitC_ne_gt {c : Char} (h : isdigitC c = true) : c ≠ '>' := by
  intro e; subst e; exact absurd h (by decide)

theorem isdigitC_ne_nul {c : Char} (h : isdigitC c = true) : c ≠ nul := by
  intro e; subst e; exact absurd h (by decide)

theorem cstr_eq_self_of_no_nul {s : List Char} (h : ∀ c ∈ s, c ≠ nul) : cstr s = s :=
  takeWhile_eq_self_of_all s (fun c hc => by simpa [bne_iff_ne] using h c hc)

/-- The FILENAME tag consumed from `READ_KEY` (after its '[') with no
pending filename: the validated name is stored and the machine proceeds
to `READ_NEXT`. -/
theorem run_filename_tag_key (cfg : Config) (nm : List Char) (m : Machine)
    (hst : m.state = .READ_KEY) (hbuf : m.buf = []) (hname : m.rcv_file_name = none)
    (hval : ∀ c ∈ nm, filename_char_ok c = true) (hlen : nm.length ≤ 126) :
    run cfg m (byteEvents (tagTail "FILENAME".toList nm)) =
      { m with
        state := .READ_NEXT
        buf := []
        rcv_file_name := some nm
        log := m.log ++ [(.LOG_DEBUG, .filenameOk nm)] } := by
  have hnonul : ∀ c ∈ nm, c ≠ nul := fun c hc => filename_char_ok_ne_nul (hval c hc)
  have hnogt : ∀ c ∈ nm, c ≠ '>' := fun c hc => filename_char_ok_ne_gt (hval c hc)
  have hcstr : cstr nm = nm := cstr_eq_self_of_no_nul hnonul
  obtain ⟨st, fo, rnm, rsz, sfp, bf, req, tmo, tot, dml, lg, fss⟩ := m
  simp only at hst hbuf hname
  subst hst; subst hbuf; subst hname
  simp only [tagTail]
  rw [byteEvents_append, run_append, byteEvents_append, run_append,
    run_key_accum cfg ("FILENAME".toList) _ rfl (by decide)
      (by show ([] : List Char).length + ("FILENAME".toList).length ≤ 127
          decide)]
  simp only [List.nil_append]
  rw [byteEvents_cons, run_cons,
    step_key_filename cfg _ [] okSys rfl
      (by show cstr ("FILENAME".toList) = "FILENAME".toList
          decide)
      rfl]
  rw [run_name_accum cfg ('<' :: nm) _ rfl
    (by intro c hc
        rcases List.mem_cons.mp hc with h | h
        · subst h; decide
        · exact hnogt c h)
    (by simp; omega)]
  simp only [List.nil_append]
  rw [byteEvents_cons, run_cons, byteEvents_nil, run_nil]
  simp [step, hcstr, emit, List.all_eq_true.mpr hval]

end CyFlowRec

namespace CyFlowRec

/-- The FILESIZE tag (digit string `ds` of value `n ≤ LONG_MAX`) consumed
from `READ_KEY` (after its '[') with a pending filename and no size yet:
the size is stored and the machine proceeds to `READ_NEXT`. -/
theorem run_filesize_tag_key (cfg : Config) (ds nm : List Char) (n : Nat) (m : Machine)
    (hst : m.state = .READ_KEY) (hbuf : m.buf = []) (hname : m.rcv_file_name = some nm)
    (hsz : m.rcv_file_size = 0) (hne : ds ≠ []) (hall : ds.all isdigitC = true)
    (hdlen : ds.length ≤ 126) (hval : digitsVal ds = n) (hb : (n : Int) ≤ LONG_MAX) :
    run cfg m (byteEvents (tagTail "FILESIZE".toList ds)) =
      { m with
        state := .READ_NEXT
        buf := []
        rcv_file_size := n
        log := m.log ++ [(.LOG_DEBUG, .filesizeOk ds)] } := by
  have hdig : ∀ c ∈ ds, isdigitC c = true := fun c hc => List.all_eq_true.mp hall c hc
  have hnonul : ∀ c ∈ ds, c ≠ nul := fun c hc => isdigitC_ne_nul (hdig c hc)
  have hnogt : ∀ c ∈ ds, c ≠ '>' := fun c hc => isdigitC_ne_gt (hdig c hc)
  have hcstr : cstr ds = ds := cstr_eq_self_of_no_nul hnonul
  have hstl : strtol10 ds = ((n : Int), ds.length) := by
    rw [← hval]
    exact strtol10_digits ds hne hall (hval ▸ hb)
  obtain ⟨st, fo, rnm, rsz, sfp, bf, req, tmo, tot, dml, lg, fss⟩ := m
  simp only at hst hbuf hname hsz
  subst hst; subst hbuf; subst hname; subst hsz
  simp only [tagTail]
  rw [byteEvents_append, run_append, byteEvents_append, run_append,
    run_key_accum cfg ("FILESIZE".toList) _ rfl (by decide)
      (by show ([] : List Char).length + ("FILESIZE".toList).length ≤ 127
          decide)]
  simp only [List.nil_append]
  rw [byteEvents_cons, run_cons,
    step_key_filesize cfg _ [] nm okSys rfl
      (by show cstr ("FILESIZE".toList) = "FILESIZE".toList
          decide)
      rfl rfl]
  rw [run_size_accum cfg ('<' :: ds) _ rfl
    (by intro c hc
        rcases List.mem_cons.mp hc with h | h
        · subst h; decide
        · exact hnogt c h)
    (by simp; omega)]
  simp only [List.nil_append]
  rw [byteEvents_cons, run_cons, byteEvents_nil, run_nil]
  have hn0 : (0 : Int) ≤ (n : Int) := Int.natCast_nonneg n
  have hcomm : 1 + ds.length = ds.length + 1 := Nat.add_comm 1 ds.length
  simp [step, hstl, hcstr, emit, hn0, hcomm]

end CyFlowRec

namespace CyFlowRec

/-- An unknown tag (with its leading '[') consumed from `READ_NEXT`. -/
theorem run_unknown_tag_next (cfg : Config) (k v : List Char) (m : Machine)
    (hst : m.state = .READ_NEXT) (hbuf : m.buf = []) (hok : UnkOk (k, v)) :
    run cfg m (byteEvents (tagWire (k, v))) =
      { m with
        state := .READ_NEXT
        buf := []
        log := m.log ++ [(.LOG_DEBUG, .unknownKey (cstr k))] } := by
  simp only [tagWire]
  rw [byteEvents_cons, run_cons, step_next_open cfg m _ okSys hst hbuf]
  rw [run_unknown_tag_key cfg k v { m with state := .READ_KEY } rfl hbuf hok]

/-- A list of unknown tags consumed from `READ_NEXT` adds its debug log
lines and moves nothing else. -/
theorem run_unknown_tags (cfg : Config) :
    ∀ (us : List (List Char × List Char)) (m : Machine),
      m.state = .READ_NEXT → m.buf = [] → (∀ kv ∈ us, UnkOk kv) →
      run cfg m (byteEvents (unknownsWire us)) =
        { m with state := .READ_NEXT, buf := [], log := m.log ++ unkLogs us }
  | [], m, hst, hbuf, _ => by
      simp only [unknownsWire, List.map_nil, List.flatten_nil, byteEvents_nil, run_nil,
        unkLogs, List.append_nil]
      rw [← hst, ← hbuf]
  | kv :: us, m, hst, hbuf, hok => by
      have e : unknownsWire (kv :: us) = tagWire kv ++ unknownsWire us := by
        simp [unknownsWire]
      rw [e, byteEvents_append, run_append]
      obtain ⟨k, v⟩ := kv
      rw [run_unknown_tag_next cfg k v m hst hbuf (hok (k, v) (List.mem_cons_self _ _))]
      rw [run_unknown_tags cfg us _ rfl rfl
        (fun kv2 h2 => hok kv2 (List.mem_cons_of_mem _ h2))]
      simp [unkLogs]

end CyFlowRec

namespace CyFlowRec

/-- The `[FILENAME]<nm>` tag consumed from `READ_NEXT`. -/
theorem run_filename_tag_next (cfg : Config) (nm : List Char) (m : Machine)
    (hst : m.state = .READ_NEXT) (hbuf : m.buf = []) (hname : m.rcv_file_name = none)
    (hval : ∀ c ∈ nm, filename_char_ok c = true) (hlen : nm.length ≤ 126) :
    run cfg m (byteEvents ('[' :: tagTail "FILENAME".toList nm)) =
      { m with
        state := .READ_NEXT
        buf := []
        rcv_file_name := some nm
        log := m.log ++ [(.LOG_DEBUG, .filenameOk nm)] } := by
  rw [byteEvents_cons, run_cons, step_next_open cfg m _ okSys hst hbuf]
  rw [run_filename_tag_key cfg nm { m with state := .READ_KEY } rfl hbuf hname hval hlen]

/-- The `[FILESIZE]<ds>` tag consumed from `READ_NEXT`. -/
theorem run_filesize_tag_next (cfg : Config) (ds nm : List Char) (n : Nat) (m : Machine)
    (hst : m.state = .READ_NEXT) (hbuf : m.buf = []) (hname : m.rcv_file_name = some nm)
    (hsz : m.rcv_file_size = 0) (hne : ds ≠ []) (hall : ds.all isdigitC = true)
    (hdlen : ds.length ≤ 126) (hval : digitsVal ds = n) (hb : (n : Int) ≤ LONG_MAX) :
    run cfg m (byteEvents ('[' :: tagTail "FILESIZE".toList ds)) =
      { m with
        state := .READ_NEXT
        buf := []
        rcv_file_size := n
        log := m.log ++ [(.LOG_DEBUG, .filesizeOk ds)] } := by
  rw [byteEvents_cons, run_cons, step_next_open cfg m _ okSys hst hbuf]
  rw [run_filesize_tag_key cfg ds nm n { m with state := .READ_KEY } rfl hbuf hname hsz
    hne hall hdlen hval hb]

end CyFlowRec

namespace CyFlowRec

/-- Payload streaming, one byte per read, with the destination handle
open: the bytes are appended to the destination file; at the declared
size the file is closed, completion is logged and the machine returns to
the idle shape.  `written` is what reached the file so far, `mid` the
bytes sitting in `buf`, `rest` the bytes still to arrive. -/
theorem run_stream_open (cfg : Config) :
    ∀ (rest : List Char) (m : Machine) (nm path written mid : List Char) (n : Nat),
      m.state = .READ_FILE → m.file_open = true →
      m.rcv_file_name = some nm → m.storage_file_path = some path →
      m.rcv_file_size = n → m.total_rcv_file_bytes = written.length →
      m.buf = mid → fsLookup m.fs path = some written →
      written.length + mid.length + rest.length = n →
      rest ≠ [] →
      run cfg m (byteEvents rest) =
        { m with
          state := .READ_START
          file_open := false
          rcv_file_name := none
          rcv_file_size := 0
          storage_file_path := none
          buf := []
          requested_reading_len := 1
          timeout_infinite := true
          total_rcv_file_bytes := n
          log := m.log ++ [(.LOG_INFO, .fileSaved nm path)]
          fs := fsSet m.fs path (written ++ mid ++ rest) }
  | [], _, _, _, _, _, _, _, _, _, _, _, _, _, _, _, hne => absurd rfl hne
  | c :: rest', m, nm, path, written, mid, n, hst, hfo, hnm, hpath, hsz, htot, hbuf,
      hlk, hsum, _ => by
      obtain ⟨st, fo, rnm, rsz, sfp, bf, req, tmo, tot, dml, lg, fss⟩ := m
      simp only at hst hfo hnm hpath hsz htot hbuf hlk
      subst hst; subst hfo; subst hnm; subst hpath; subst hsz; subst hbuf
      simp only [List.length_cons] at hsum
      rw [byteEvents_cons, run_cons]
      by_cases hrest : rest' = []
      · subst hrest
        simp only [List.length_nil] at hsum
        have hge : rsz ≤ tot + (bf.length + 1) := by omega
        have htotal : tot + (bf.length + 1) = rsz := by omega
        rw [byteEvents_nil, run_nil]
        simp [step, okSys, emit, fsAppend, hlk, hge, htotal, List.append_assoc]
      · have hr1 : 1 ≤ rest'.length := by
          cases rest' with
          | nil => exact absurd rfl hrest
          | cons a b => simp
        have hlt : ¬ (rsz ≤ tot + (bf.length + 1)) := by omega
        have hstep : step cfg
            { state := .READ_FILE, file_open := true, rcv_file_name := some nm,
              rcv_file_size := rsz, storage_file_path := some path, buf := bf,
              requested_reading_len := req, timeout_infinite := tmo,
              total_rcv_file_bytes := tot, discard_message_logged := dml,
              log := lg, fs := fss }
            (Event.chunk [c] okSys) =
            { state := .READ_FILE, file_open := true, rcv_file_name := some nm,
              rcv_file_size := rsz, storage_file_path := some path, buf := [],
              requested_reading_len := min (rsz - (tot + (bf.length + 1))) 128,
              timeout_infinite := tmo,
              total_rcv_file_bytes := tot + (bf.length + 1),
              discard_message_logged := dml,
              log := lg, fs := fsSet fss path (written ++ (bf ++ [c])) } := by
          simp [step, okSys, fsAppend, hlk, hlt]
        rw [hstep]
        rw [run_stream_open cfg rest' _ nm path (written ++ (bf ++ [c])) [] rsz
          rfl rfl rfl rfl rfl
          (by simp only [List.length_append, List.length_cons, List.length_nil]
              omega)
          rfl (fsLookup_fsSet_self fss path _)
          (by simp only [List.length_append, List.length_cons, List.length_nil]
              omega)
          hrest]
        simp [fsSet_fsSet, List.append_assoc]

end CyFlowRec

namespace CyFlowRec

/-- Payload streaming, one byte per read, with no destination handle:
the bytes are consumed and discarded; at the declared size the machine
logs that the file was received but discarded or truncated and returns
to the idle shape.  The stored files never change. -/
theorem run_stream_closed (cfg : Config) :
    ∀ (rest : List Char) (m : Machine) (nm : List Char) (t : Nat) (mid : List Char) (n : Nat),
      m.state = .READ_FILE → m.file_open = false →
      m.rcv_file_name = some nm →
      m.rcv_file_size = n → m.total_rcv_file_bytes = t →
      m.buf = mid →
      t + mid.length + rest.length = n →
      rest ≠ [] →
      run cfg m (byteEvents rest) =
        { m with
          state := .READ_START
          file_open := false
          rcv_file_name := none
          rcv_file_size := 0
          storage_file_path := none
          buf := []
          requested_reading_len := 1
          timeout_infinite := true
          total_rcv_file_bytes := n
          log := m.log ++ [(.LOG_INFO, .fileDiscarded nm)] }
  | [], _, _, _, _, _, _, _, _, _, _, _, _, hne => absurd rfl hne
  | c :: rest', m, nm, t, mid, n, hst, hfo, hnm, hsz, htot, hbuf, hsum, _ => by
      obtain ⟨st, fo, rnm, rsz, sfp, bf, req, tmo, tot, dml, lg, fss⟩ := m
      simp only at hst hfo hnm hsz htot hbuf
      subst hst; subst hfo; subst hnm; subst hsz; subst hbuf; subst htot
      simp only [List.length_cons] at hsum
      rw [byteEvents_cons, run_cons]
      by_cases hrest : rest' = []
      · subst hrest
        simp only [List.length_nil] at hsum
        have hge : rsz ≤ tot + (bf.length + 1) := by omega
        have htotal : tot + (bf.length + 1) = rsz := by omega
        rw [byteEvents_nil, run_nil]
        simp [step, okSys, emit, hge, htotal]
      · have hr1 : 1 ≤ rest'.length := by
          cases rest' with
          | nil => exact absurd rfl hrest
          | cons a b => simp
        have hlt : ¬ (rsz ≤ tot + (bf.length + 1)) := by omega
        have hstep : step cfg
            { state := .READ_FILE, file_open := false, rcv_file_name := some nm,
              rcv_file_size := rsz, storage_file_path := sfp, buf := bf,
              requested_reading_len := req, timeout_infinite := tmo,
              total_rcv_file_bytes := tot, discard_message_logged := dml,
              log := lg, fs := fss }
            (Event.chunk [c] okSys) =
            { state := .READ_FILE, file_open := false, rcv_file_name := some nm,
              rcv_file_size := rsz, storage_file_path := sfp, buf := [],
              requested_reading_len := min (rsz - (tot + (bf.length + 1))) 128,
              timeout_infinite := tmo,
              total_rcv_file_bytes := tot + (bf.length + 1),
              discard_message_logged := dml,
              log := lg, fs := fss } := by
          simp [step, okSys, hlt]
        rw [hstep]
        rw [run_stream_closed cfg rest' _ nm (tot + (bf.length + 1)) [] rsz
          rfl rfl rfl rfl rfl rfl
          (by simp only [List.length_nil]
              omega)
          hrest]

end CyFlowRec

namespace CyFlowRec

/-! ### Payload transition (READ_NEXT, first payload byte) -/

/-- The payload transition when the destination path is not yet present:
the file is created exclusively (empty), the handle is open and payload
streaming starts with the received byte as first payload byte. -/
theorem step_payload_fresh (cfg : Config) (m : Machine) (nm : List Char) (n : Nat) (c : Char)
    (hst : m.state = .READ_NEXT) (hbuf : m.buf = []) (hname : m.rcv_file_name = some nm)
    (hsz : m.rcv_file_size = n) (hn : n ≠ 0) (hc : c ≠ '[')
    (hfresh : fsLookup m.fs (mkPath cfg.storage_dir nm) = none) :
    step cfg m (.chunk [c] okSys) =
      { m with
        state := .READ_FILE
        file_open := true
        storage_file_path := some (mkPath cfg.storage_dir nm)
        buf := [c]
        total_rcv_file_bytes := 0
        requested_reading_len := payloadReq n
        log := m.log ++ [(.LOG_INFO, .incomingFile nm n (mkPath cfg.storage_dir nm))]
        fs := fsSet m.fs (mkPath cfg.storage_dir nm) [] } := by
  have hn' : ¬ (m.rcv_file_size = 0) := by rw [hsz]; exact hn
  simp [step, hst, hbuf, hname, hsz, hn, hn', hc, emit, openDest, okSys, hfresh, payloadReq]

/-- The payload transition when the destination path already exists and
the policy is REPLACE: a warning is logged, the existing file is
re-opened truncating (it becomes empty at once), and streaming starts
with an open handle. -/
theorem step_payload_exists_replace (cfg : Config) (m : Machine) (nm old : List Char)
    (n : Nat) (c : Char)
    (hst : m.state = .READ_NEXT) (hbuf : m.buf = []) (hname : m.rcv_file_name = some nm)
    (hsz : m.rcv_file_size = n) (hn : n ≠ 0) (hc : c ≠ '[')
    (hpol : cfg.file_exists_policy = .FILE_REPLACE)
    (hfound : fsLookup m.fs (mkPath cfg.storage_dir nm) = some old) :
    step cfg m (.chunk [c] okSys) =
      { m with
        state := .READ_FILE
        file_open := true
        storage_file_path := some (mkPath cfg.storage_dir nm)
        buf := [c]
        total_rcv_file_bytes := 0
        requested_reading_len := payloadReq n
        log := m.log ++ [(.LOG_INFO, .incomingFile nm n (mkPath cfg.storage_dir nm)),
          (.LOG_WARNING, .fileExistsReplace (mkPath cfg.storage_dir nm) nm)]
        fs := fsSet m.fs (mkPath cfg.storage_dir nm) [] } := by
  have hn' : ¬ (m.rcv_file_size = 0) := by rw [hsz]; exact hn
  simp [step, hst, hbuf, hname, hsz, hn, hn', hc, emit, openDest, okSys, hfound, hpol,
    payloadReq]

/-- The payload transition when the destination path already exists and
the policy is DROP: a warning is logged, no handle is opened and the
stored files do not change; streaming starts with no handle. -/
theorem step_payload_exists_drop (cfg : Config) (m : Machine) (nm old : List Char)
    (n : Nat) (c : Char)
    (hst : m.state = .READ_NEXT) (hbuf : m.buf = []) (hname : m.rcv_file_name = some nm)
    (hsz : m.rcv_file_size = n) (hn : n ≠ 0) (hc : c ≠ '[')
    (hpol : cfg.file_exists_policy = .FILE_DROP)
    (hfound : fsLookup m.fs (mkPath cfg.storage_dir nm) = some old) :
    step cfg m (.chunk [c] okSys) =
      { m with
        state := .READ_FILE
        storage_file_path := some (mkPath cfg.storage_dir nm)
        buf := [c]
        total_rcv_file_bytes := 0
        requested_reading_len := payloadReq n
        log := m.log ++ [(.LOG_INFO, .incomingFile nm n (mkPath cfg.storage_dir nm)),
          (.LOG_WARNING, .fileExistsDrop (mkPath cfg.storage_dir nm) nm)] } := by
  have hn' : ¬ (m.rcv_file_size = 0) := by rw [hsz]; exact hn
  simp [step, hst, hbuf, hname, hsz, hn, hn', hc, emit, openDest, okSys, hfound, hpol,
    payloadReq]

end CyFlowRec

namespace CyFlowRec

/-- Wire bytes of the `[FILENAME]<nm>` tag. -/
def fnWire (nm : List Char) : List Char := '[' :: tagTail "FILENAME".toList nm

/-- Wire bytes of the `[FILESIZE]<ds>` tag. -/
def szWire (ds : List Char) : List Char := '[' :: tagTail "FILESIZE".toList ds

/-- Wire bytes of a block's metadata: unknown tags, the FILENAME tag,
unknown tags, the FILESIZE tag, unknown tags.  Its first byte is the
'[' that starts the block. -/
def metaWire (us1 : List (List Char × List Char)) (nm : List Char)
    (us2 : List (List Char × List Char)) (ds : List Char)
    (us3 : List (List Char × List Char)) : List Char :=
  unknownsWire us1 ++ fnWire nm ++ unknownsWire us2 ++ szWire ds ++ unknownsWire us3

/-- Log lines of a processed metadata phase. -/
def metaLogs (us1 : List (List Char × List Char)) (nm : List Char)
    (us2 : List (List Char × List Char)) (ds : List Char)
    (us3 : List (List Char × List Char)) : List (log_priority × LogMsg) :=
  [(.LOG_INFO, .startReceiving)] ++ unkLogs us1 ++ [(.LOG_DEBUG, .filenameOk nm)] ++
  unkLogs us2 ++ [(.LOG_DEBUG, .filesizeOk ds)] ++ unkLogs us3

/-- Processing a whole metadata phase from the idle state: the '[' starts
the block (log, finite timeout), the FILENAME and FILESIZE tags store
the session values, unknown tags interleaved anywhere are only logged.
Ends in `READ_NEXT` awaiting another tag or the first payload byte. -/
theorem run_meta_start (cfg : Config) (us1 : List (List Char × List Char)) (nm : List Char)
    (us2 : List (List Char × List Char)) (ds : List Char)
    (us3 : List (List Char × List Char)) (n : Nat) (m : Machine)
    (hst : m.state = .READ_START) (hbuf : m.buf = [])
    (hname : m.rcv_file_name = none) (hsz : m.rcv_file_size = 0)
    (hus1 : ∀ kv ∈ us1, UnkOk kv) (hus2 : ∀ kv ∈ us2, UnkOk kv)
    (hus3 : ∀ kv ∈ us3, UnkOk kv)
    (hval : ∀ c ∈ nm, filename_char_ok c = true) (hlen : nm.length ≤ 126)
    (hdne : ds ≠ []) (hdall : ds.all isdigitC = true) (hdlen : ds.length ≤ 126)
    (hdval : digitsVal ds = n) (hdb : (n : Int) ≤ LONG_MAX) :
    run cfg m (byteEvents (metaWire us1 nm us2 ds us3)) =
      { m with
        state := .READ_NEXT
        buf := []
        rcv_file_name := some nm
        rcv_file_size := n
        discard_message_logged := false
        timeout_infinite := false
        log := m.log ++ metaLogs us1 nm us2 ds us3 } := by
  obtain ⟨st, fo, rnm, rsz, sfp, bf, req, tmo, tot, dml, lg, fss⟩ := m
  simp only at hst hbuf hname hsz
  subst hst; subst hbuf; subst hname; subst hsz
  cases us1 with
  | nil =>
      have e0 : metaWire [] nm us2 ds us3 =
          '[' :: (tagTail ("FILENAME".toList) nm ++
            (unknownsWire us2 ++ (szWire ds ++ unknownsWire us3))) := by
        simp [metaWire, unknownsWire, fnWire, List.append_assoc]
      rw [e0, byteEvents_cons, run_cons, step_start_open cfg _ [] okSys rfl rfl]
      rw [byteEvents_append, run_append,
        run_filename_tag_key cfg nm _ rfl rfl rfl hval hlen]
      rw [byteEvents_append, run_append,
        run_unknown_tags cfg us2 _ rfl rfl hus2]
      rw [byteEvents_append, run_append]
      simp only [szWire]
      rw [run_filesize_tag_next cfg ds nm n _ rfl rfl rfl rfl hdne hdall hdlen hdval hdb]
      rw [run_unknown_tags cfg us3 _ rfl rfl hus3]
      simp [metaLogs, unkLogs, List.append_assoc]
  | cons kv us1' =>
      obtain ⟨k, v⟩ := kv
      have e0 : metaWire ((k, v) :: us1') nm us2 ds us3 =
          '[' :: (tagTail k v ++ (unknownsWire us1' ++ (fnWire nm ++
            (unknownsWire us2 ++ (szWire ds ++ unknownsWire us3))))) := by
        simp [metaWire, unknownsWire, tagWire, List.append_assoc]
      rw [e0, byteEvents_cons, run_cons, step_start_open cfg _ [] okSys rfl rfl]
      rw [byteEvents_append, run_append,
        run_unknown_tag_key cfg k v _ rfl rfl (hus1 (k, v) (List.mem_cons_self _ _))]
      rw [byteEvents_append, run_append,
        run_unknown_tags cfg us1' _ rfl rfl
          (fun kv2 h2 => hus1 kv2 (List.mem_cons_of_mem _ h2))]
      rw [byteEvents_append, run_append]
      simp only [fnWire]
      rw [run_filename_tag_next cfg nm _ rfl rfl rfl hval hlen]
      rw [byteEvents_append, run_append,
        run_unknown_tags cfg us2 _ rfl rfl hus2]
      rw [byteEvents_append, run_append]
      simp only [szWire]
      rw [run_filesize_tag_next cfg ds nm n _ rfl rfl rfl rfl hdne hdall hdlen hdval hdb]
      rw [run_unknown_tags cfg us3 _ rfl rfl hus3]
      simp [metaLogs, unkLogs, List.append_assoc]

end CyFlowRec

namespace CyFlowRec

/-- Wire bytes of a whole block: metadata tags then the payload. -/
def blockWire (us1 : List (List Char × List Char)) (nm : List Char)
    (us2 : List (List Char × List Char)) (ds : List Char)
    (us3 : List (List Char × List Char)) (payload : List Char) : List Char :=
  metaWire us1 nm us2 ds us3 ++ payload

/-- One event per received byte of a block. -/
def blockEvents (us1 : List (List Char × List Char)) (nm : List Char)
    (us2 : List (List Char × List Char)) (ds : List Char)
    (us3 : List (List Char × List Char)) (payload : List Char) : List Event :=
  byteEvents (blockWire us1 nm us2 ds us3 payload)

/-- A full well-formed block processed from the idle state, with the
destination path not yet present: the destination file ends up being
exactly the payload, completion is logged, and the machine returns to
the idle shape. -/
theorem run_block_fresh (cfg : Config) (us1 : List (List Char × List Char)) (nm : List Char)
    (us2 : List (List Char × List Char)) (ds : List Char)
    (us3 : List (List Char × List Char)) (n : Nat) (p1 : Char) (prest : List Char)
    (m : Machine) (hidle : IdleLike m)
    (hus1 : ∀ kv ∈ us1, UnkOk kv) (hus2 : ∀ kv ∈ us2, UnkOk kv)
    (hus3 : ∀ kv ∈ us3, UnkOk kv)
    (hval : ∀ c ∈ nm, filename_char_ok c = true) (hlen : nm.length ≤ 126)
    (hdne : ds ≠ []) (hdall : ds.all isdigitC = true) (hdlen : ds.length ≤ 126)
    (hdval : digitsVal ds = n) (hdb : (n : Int) ≤ LONG_MAX)
    (hn : 2 ≤ n) (hp1 : p1 ≠ '[') (hplen : (p1 :: prest).length = n)
    (hfresh : fsLookup m.fs (mkPath cfg.storage_dir nm) = none) :
    run cfg m (blockEvents us1 nm us2 ds us3 (p1 :: prest)) =
      { m with
        discard_message_logged := false
        total_rcv_file_bytes := n
        log := m.log ++ metaLogs us1 nm us2 ds us3 ++
          [(.LOG_INFO, .incomingFile nm n (mkPath cfg.storage_dir nm)),
           (.LOG_INFO, .fileSaved nm (mkPath cfg.storage_dir nm))]
        fs := fsSet m.fs (mkPath cfg.storage_dir nm) (p1 :: prest) } := by
  obtain ⟨h1, h2, h3, h4, h5, h6, h7, h8⟩ := hidle
  simp only [List.length_cons] at hplen
  have hprest : prest ≠ [] := by
    intro h
    subst h
    simp at hplen
    omega
  obtain ⟨st, fo, rnm, rsz, sfp, bf, req, tmo, tot, dml, lg, fss⟩ := m
  simp only at h1 h2 h3 h4 h5 h6 h7 h8 hfresh
  subst h1; subst h2; subst h3; subst h4; subst h5; subst h6; subst h7; subst h8
  simp only [blockEvents, blockWire]
  rw [byteEvents_append, run_append,
    run_meta_start cfg us1 nm us2 ds us3 n _ rfl rfl rfl rfl hus1 hus2 hus3
      hval hlen hdne hdall hdlen hdval hdb]
  rw [byteEvents_cons, run_cons,
    step_payload_fresh cfg _ nm n p1 rfl rfl rfl rfl (by omega) hp1 hfresh]
  rw [run_stream_open cfg prest _ nm (mkPath cfg.storage_dir nm) [] [p1] n
    rfl rfl rfl rfl rfl rfl rfl
    (fsLookup_fsSet_self _ _ _)
    (by simp only [List.length_nil, List.length_cons]
        omega)
    hprest]
  simp [fsSet_fsSet, List.append_assoc]

end CyFlowRec

namespace CyFlowRec

/-! ### Claim C1: well-formed block reception -/

/-- C1 (amended).  For every well-formed block delivered byte-by-byte to
the idle machine — a '[' start byte, a FILENAME tag with a valid name of
at most 126 bytes appearing BEFORE a FILESIZE tag whose decimal value is
`n` with `2 ≤ n ≤ LONG_MAX`, possibly interleaved with unknown tags,
followed by exactly `n` payload bytes the first of which is not '[' —
and a destination path (storage directory joined with the filename) not
yet present, the receive loop writes exactly those `n` bytes to the
destination file, logs the completion message, and returns to the idle
state `READ_START` with the session cleared, `requested_reading_len = 1`
and the timeout reset to infinite.  The original claim fails without the
amendments: with the FILESIZE tag before the FILENAME tag the block is
discarded, with `n = 1` the loop requests zero further bytes and never
completes the file, and a first payload byte '[' is taken for another
tag (see the counterexample). -/
theorem recv_C1_wellformed_block (cfg : Config) (us1 : List (List Char × List Char))
    (nm : List Char) (us2 : List (List Char × List Char)) (ds : List Char)
    (us3 : List (List Char × List Char)) (n : Nat) (p1 : Char) (prest : List Char)
    (m : Machine) (hidle : IdleLike m)
    (hus1 : ∀ kv ∈ us1, UnkOk kv) (hus2 : ∀ kv ∈ us2, UnkOk kv)
    (hus3 : ∀ kv ∈ us3, UnkOk kv)
    (hval : ∀ c ∈ nm, filename_char_ok c = true) (hlen : nm.length ≤ 126)
    (hdne : ds ≠ []) (hdall : ds.all isdigitC = true) (hdlen : ds.length ≤ 126)
    (hdval : digitsVal ds = n) (hdb : (n : Int) ≤ LONG_MAX)
    (hn : 2 ≤ n) (hp1 : p1 ≠ '[') (hplen : (p1 :: prest).length = n)
    (hfresh : fsLookup m.fs (mkPath cfg.storage_dir nm) = none) :
    fsLookup (run cfg m (blockEvents us1 nm us2 ds us3 (p1 :: prest))).fs
        (mkPath cfg.storage_dir nm) = some (p1 :: prest) ∧
    ((log_priority.LOG_INFO, LogMsg.fileSaved nm (mkPath cfg.storage_dir nm)) ∈
        (run cfg m (blockEvents us1 nm us2 ds us3 (p1 :: prest))).log) ∧
    IdleLike (run cfg m (blockEvents us1 nm us2 ds us3 (p1 :: prest))) := by
  rw [run_block_fresh cfg us1 nm us2 ds us3 n p1 prest m hidle hus1 hus2 hus3
    hval hlen hdne hdall hdlen hdval hdb hn hp1 hplen hfresh]
  obtain ⟨h1, h2, h3, h4, h5, h6, h7, h8⟩ := hidle
  refine ⟨fsLookup_fsSet_self _ _ _, by simp, ?_⟩
  exact ⟨h1, h2, h3, h4, h5, h6, h7, h8⟩

/-- C1 counterexample, refuting the claim as frozen on three concrete
blocks delivered to the idle machine (configuration `cfgR`, empty
storage): (a) tag order `[FILESIZE]<2>[FILENAME]<A>` followed by the two
payload bytes leaves the machine discarding with nothing stored —
FILESIZE before FILENAME is not accepted "in either order"; (b) a block
with `n = 1` (`[FILENAME]<A>[FILESIZE]<1>` then one payload byte) leaves
the machine stuck in READ_FILE requesting zero bytes, with the created
destination file still empty instead of containing the payload byte;
(c) a block with `n = 2` whose payload starts with '[' is parsed as
another tag: the machine ends in READ_KEY and no file is stored. -/
theorem recv_C1_cex :
    ((run cfgR (initM []) (byteEvents ("[FILESIZE]<2>[FILENAME]<A>ab".toList))).state =
        .READ_DISCARD_UNTIL_TIMEOUT ∧
      fsLookup (run cfgR (initM [])
        (byteEvents ("[FILESIZE]<2>[FILENAME]<A>ab".toList))).fs
        (mkPath cfgR.storage_dir ['A']) = none) ∧
    ((run cfgR (initM []) (byteEvents ("[FILENAME]<A>[FILESIZE]<1>x".toList))).state =
        .READ_FILE ∧
      (run cfgR (initM [])
        (byteEvents ("[FILENAME]<A>[FILESIZE]<1>x".toList))).requested_reading_len = 0 ∧
      fsLookup (run cfgR (initM [])
        (byteEvents ("[FILENAME]<A>[FILESIZE]<1>x".toList))).fs
        (mkPath cfgR.storage_dir ['A']) = some []) ∧
    ((run cfgR (initM []) (byteEvents ("[FILENAME]<A>[FILESIZE]<2>[y".toList))).state =
        .READ_KEY ∧
      fsLookup (run cfgR (initM [])
        (byteEvents ("[FILENAME]<A>[FILESIZE]<2>[y".toList))).fs
        (mkPath cfgR.storage_dir ['A']) = none) := by
  decide

theorem recv_C1_wellformed_block_witness :
    IdleLike (initM []) ∧
    fsLookup (run cfgR (initM [])
        (blockEvents [] ("A.FCS".toList) [("OPERATOR".toList, "jdoe".toList)]
          ['2'] [] ['a', 'b'])).fs
        (mkPath cfgR.storage_dir ("A.FCS".toList)) = some ['a', 'b'] :=
  ⟨by decide,
    (recv_C1_wellformed_block cfgR [] ("A.FCS".toList)
      [("OPERATOR".toList, "jdoe".toList)] ['2'] [] 2 'a' ['b'] (initM [])
      (by decide) (by decide) (by decide) (by decide) (by decide) (by decide)
      (by decide) (by decide) (by decide) (by decide) (by decide) (by decide)
      (by decide) (by decide) (by decide)).1⟩

end CyFlowRec

namespace CyFlowRec

/-! ### Claim C3: FILESIZE ordering errors -/

/-- C3 (amended).  A FILESIZE key received before any FILENAME, and a
FILESIZE key received when a positive size is already stored, each log
an error and enter READ_DISCARD_UNTIL_TIMEOUT without touching the
stored files; while discarding, chunks keep the machine discarding and
never change the stored files (zero payload bytes written for the
block); the silence timeout then returns the machine to the idle shape
with the stored files unchanged, and a following well-formed block from
there stores its payload normally.  (A second FILESIZE key when the
stored size is 0 — e.g. after `[FILESIZE]<0>` — is NOT an error: the
gate at cyflowrec.c:289 is `rcv_file_size > 0`, so it is accepted as if
it were the first; see the counterexample.) -/
theorem recv_C3_filesize_order (cfg : Config) :
    (∀ (m : Machine) (rest : List Char) (ox : SysOracle),
      m.state = .READ_KEY → cstr m.buf = "FILESIZE".toList → m.rcv_file_name = none →
      step cfg m (.chunk (']' :: rest) ox) =
        toDiscard (emit m .LOG_ERROR .filesizeBeforeFilename)) ∧
    (∀ (m : Machine) (rest : List Char) (ox : SysOracle) (nm : List Char),
      m.state = .READ_KEY → cstr m.buf = "FILESIZE".toList →
      m.rcv_file_name = some nm → 0 < m.rcv_file_size →
      step cfg m (.chunk (']' :: rest) ox) =
        toDiscard (emit m .LOG_ERROR .filesizeAgain)) ∧
    (∀ (m : Machine) (data : List Char) (ox : SysOracle),
      m.state = .READ_DISCARD_UNTIL_TIMEOUT →
      (step cfg m (.chunk data ox)).fs = m.fs ∧
      (step cfg m (.chunk data ox)).state = .READ_DISCARD_UNTIL_TIMEOUT) ∧
    (∀ m : Machine, m.state = .READ_DISCARD_UNTIL_TIMEOUT →
      IdleLike (step cfg m .timeout) ∧ (step cfg m .timeout).fs = m.fs) ∧
    (∀ (m : Machine) (us1 : List (List Char × List Char)) (nm : List Char)
        (us2 : List (List Char × List Char)) (ds : List Char)
        (us3 : List (List Char × List Char)) (n : Nat) (p1 : Char) (prest : List Char),
      m.state = .READ_DISCARD_UNTIL_TIMEOUT →
      (∀ kv ∈ us1, UnkOk kv) → (∀ kv ∈ us2, UnkOk kv) → (∀ kv ∈ us3, UnkOk kv) →
      (∀ c ∈ nm, filename_char_ok c = true) → nm.length ≤ 126 →
      ds ≠ [] → ds.all isdigitC = true → ds.length ≤ 126 →
      digitsVal ds = n → (n : Int) ≤ LONG_MAX →
      2 ≤ n → p1 ≠ '[' → (p1 :: prest).length = n →
      fsLookup m.fs (mkPath cfg.storage_dir nm) = none →
      fsLookup (run cfg (step cfg m .timeout)
          (blockEvents us1 nm us2 ds us3 (p1 :: prest))).fs
          (mkPath cfg.storage_dir nm) = some (p1 :: prest)) := by
  refine ⟨?_, ?_, ?_, ?_, ?_⟩
  · intro m rest ox hst hkey hname
    have hkey1 : ¬ (cstr m.buf = "FILENAME".toList) := by rw [hkey]; decide
    simp [step, hst, hkey, hkey1, hname, emit, toDiscard]
  · intro m rest ox nm hst hkey hname hsz
    have hkey1 : ¬ (cstr m.buf = "FILENAME".toList) := by rw [hkey]; decide
    simp [step, hst, hkey, hkey1, hname, hsz, emit, toDiscard]
  · intro m data ox hst
    by_cases hlogged : m.discard_message_logged = true
    · simp [step, hst, hlogged]
    · simp [step, hst, hlogged, emit]
  · intro m hst
    refine ⟨timeout_idleLike cfg m, ?_⟩
    rw [step_timeout_spec]
  · intro m us1 nm us2 ds us3 n p1 prest hst hus1 hus2 hus3 hval hlen hdne hdall
      hdlen hdval hdb hn hp1 hplen hfresh
    have hfs : (step cfg m .timeout).fs = m.fs := by rw [step_timeout_spec]
    rw [run_block_fresh cfg us1 nm us2 ds us3 n p1 prest _ (timeout_idleLike cfg m)
      hus1 hus2 hus3 hval hlen hdne hdall hdlen hdval hdb hn hp1 hplen
      (by rw [hfs]; exact hfresh)]
    exact fsLookup_fsSet_self _ _ _

set_option maxRecDepth 4096 in
/-- C3 counterexample: after `[FILENAME]<A>[FILESIZE]<0>` the stored size
is 0, so a second FILESIZE tag `[FILESIZE]<5>` for the same pending
filename is accepted instead of causing DiscardUntilSilence: the machine
ends in READ_NEXT with `rcv_file_size = 5` and the name still pending. -/
theorem recv_C3_cex :
    (run cfgR (initM [])
        (byteEvents ("[FILENAME]<A>[FILESIZE]<0>[FILESIZE]<5>".toList))).state =
        .READ_NEXT ∧
    (run cfgR (initM [])
        (byteEvents ("[FILENAME]<A>[FILESIZE]<0>[FILESIZE]<5>".toList))).rcv_file_size
        = 5 ∧
    (run cfgR (initM [])
        (byteEvents ("[FILENAME]<A>[FILESIZE]<0>[FILESIZE]<5>".toList))).rcv_file_name
        = some ['A'] := by
  decide

/-- Sample machine awaiting a key whose accumulated name is FILESIZE,
with no pending filename. -/
def mKeyFS : Machine :=
  { initM [] with state := .READ_KEY, buf := "FILESIZE".toList, timeout_infinite := false }

theorem recv_C3_filesize_order_witness :
    mKeyFS.state = .READ_KEY ∧
    step cfgR mKeyFS (.chunk [']'] okSys) =
      toDiscard (emit mKeyFS .LOG_ERROR .filesizeBeforeFilename) :=
  ⟨rfl, (recv_C3_filesize_order cfgR).1 mKeyFS [] okSys rfl (by decide) rfl⟩

end CyFlowRec

namespace CyFlowRec

/-! ### Claim C6: file-exists policy at the payload transition -/

/-- C6 (amended).  At a payload transition (first payload byte `p1`
arriving in `READ_NEXT` with a pending name and size `n`, here with
`2 ≤ n` so the block can complete — for `n = 1` the loop stalls, see the
counterexample) where the destination path already exists: under
REPLACE a warning is logged, the existing file is re-opened truncating,
and after the remaining payload bytes the file contains exactly the
newly received bytes; under DROP a warning is logged, the payload is
consumed with no destination handle, and the pre-existing file is
byte-for-byte unchanged.  In both policies the block is not aborted: it
runs to completion and the machine returns to the idle shape
(cyflowrec.c:390-424). -/
theorem recv_C6_exists_policy (cfg : Config) (m : Machine) (nm old : List Char) (n : Nat)
    (p1 : Char) (prest : List Char)
    (hst : m.state = .READ_NEXT) (hbuf : m.buf = []) (hfo : m.file_open = false)
    (hname : m.rcv_file_name = some nm) (hsz : m.rcv_file_size = n)
    (hn : 2 ≤ n) (hp1 : p1 ≠ '[') (hplen : (p1 :: prest).length = n)
    (hfound : fsLookup m.fs (mkPath cfg.storage_dir nm) = some old) :
    (cfg.file_exists_policy = .FILE_REPLACE →
      run cfg m (byteEvents (p1 :: prest)) =
        { m with
          state := .READ_START
          file_open := false
          rcv_file_name := none
          rcv_file_size := 0
          storage_file_path := none
          buf := []
          requested_reading_len := 1
          timeout_infinite := true
          total_rcv_file_bytes := n
          log := m.log ++ [(.LOG_INFO, .incomingFile nm n (mkPath cfg.storage_dir nm)),
            (.LOG_WARNING, .fileExistsReplace (mkPath cfg.storage_dir nm) nm),
            (.LOG_INFO, .fileSaved nm (mkPath cfg.storage_dir nm))]
          fs := fsSet m.fs (mkPath cfg.storage_dir nm) (p1 :: prest) }) ∧
    (cfg.file_exists_policy = .FILE_DROP →
      run cfg m (byteEvents (p1 :: prest)) =
        { m with
          state := .READ_START
          file_open := false
          rcv_file_name := none
          rcv_file_size := 0
          storage_file_path := none
          buf := []
          requested_reading_len := 1
          timeout_infinite := true
          total_rcv_file_bytes := n
          log := m.log ++ [(.LOG_INFO, .incomingFile nm n (mkPath cfg.storage_dir nm)),
            (.LOG_WARNING, .fileExistsDrop (mkPath cfg.storage_dir nm) nm),
            (.LOG_INFO, .fileDiscarded nm)] } ∧
      fsLookup (run cfg m (byteEvents (p1 :: prest))).fs
        (mkPath cfg.storage_dir nm) = some old) := by
  simp only [List.length_cons] at hplen
  have hprest : prest ≠ [] := by
    intro h
    subst h
    simp at hplen
    omega
  obtain ⟨st, fo, rnm, rsz, sfp, bf, req, tmo, tot, dml, lg, fss⟩ := m
  simp only at hst hbuf hfo hname hsz hfound
  subst hst; subst hbuf; subst hfo; subst hname; subst hsz
  constructor
  · intro hpol
    rw [byteEvents_cons, run_cons,
      step_payload_exists_replace cfg _ nm old rsz p1 rfl rfl rfl rfl (by omega) hp1
        hpol hfound]
    rw [run_stream_open cfg prest _ nm (mkPath cfg.storage_dir nm) [] [p1] rsz
      rfl rfl rfl rfl rfl rfl rfl
      (fsLookup_fsSet_self _ _ _)
      (by simp only [List.length_nil, List.length_cons]
          omega)
      hprest]
    simp [fsSet_fsSet, List.append_assoc]
  · intro hpol
    rw [byteEvents_cons, run_cons,
      step_payload_exists_drop cfg _ nm old rsz p1 rfl rfl rfl rfl (by omega) hp1
        hpol hfound]
    rw [run_stream_closed cfg prest _ nm 0 [p1] rsz
      rfl rfl rfl rfl rfl rfl
      (by simp only [List.length_cons, List.length_nil]
          omega)
      hprest]
    constructor
    · simp [List.append_assoc]
    · exact hfound

set_option maxRecDepth 4096 in
/-- C6 counterexample: with the REPLACE policy and a block of declared
size 1 (`[FILENAME]<A>[FILESIZE]<1>` then the payload byte 'x'), the
pre-existing file "zz" at the destination path is truncated by the
re-open, but the loop then requests zero bytes and the silence timeout
aborts the session: the block ends with the destination file EMPTY — not
"containing exactly the newly received bytes" ('x'). -/
theorem recv_C6_cex :
    (run cfgR (initM [(mkPath cfgR.storage_dir ['A'], ['z', 'z'])])
        (byteEvents ("[FILENAME]<A>[FILESIZE]<1>x".toList) ++ [Event.timeout])).state =
        .READ_START ∧
    fsLookup (run cfgR (initM [(mkPath cfgR.storage_dir ['A'], ['z', 'z'])])
        (byteEvents ("[FILENAME]<A>[FILESIZE]<1>x".toList) ++ [Event.timeout])).fs
        (mkPath cfgR.storage_dir ['A']) = some [] := by
  decide

/-- Sample machine at the payload transition with pending name "A",
size 2 and an existing destination file "zz". -/
def mNext6 : Machine :=
  { initM [(mkPath cfgR.storage_dir ['A'], ['z', 'z'])] with
    state := .READ_NEXT
    rcv_file_name := some ['A']
    rcv_file_size := 2
    timeout_infinite := false }

theorem recv_C6_exists_policy_witness :
    cfgR.file_exists_policy = .FILE_REPLACE ∧
    fsLookup (run cfgR mNext6 (byteEvents ['x', 'y'])).fs
      (mkPath cfgR.storage_dir ['A']) = some ['x', 'y'] := by
  have h := (recv_C6_exists_policy cfgR mNext6 ['A'] ['z', 'z'] 2 'x' ['y']
    rfl rfl rfl rfl rfl (by decide) (by decide) rfl (by decide)).1 rfl
  refine ⟨rfl, ?_⟩
  rw [h]
  exact fsLookup_fsSet_self _ _ _

end CyFlowRec

namespace CyFlowRec

/-! ### Claim C7: write failure during payload streaming -/

/-- C7.  A `write` failure during payload streaming (an iteration in
`READ_FILE` with an open handle whose write loop fails after `p` bytes)
logs the "Cannot write ... will be truncated" error, closes and drops
the destination handle, and leaves on disk only the bytes written before
the failure.  The block is never aborted: if payload bytes remain, the
machine stays in `READ_FILE` with the byte accounting intact and — fed
the remaining declared bytes — consumes them without a handle, logs that
the file was discarded or truncated, and returns to the idle shape with
no further change to the stored files; a subsequent well-formed block is
then received and stored normally (cyflowrec.c:435-452). -/
theorem recv_C7_write_failure (cfg : Config) (m : Machine) (data : List Char) (p : Nat)
    (ox2 : SysOracle) (nm path : List Char)
    (hst : m.state = .READ_FILE) (hfo : m.file_open = true)
    (hname : m.rcv_file_name = some nm) (hpath : m.storage_file_path = some path)
    (hox : ox2.wfail = some p) :
    ((step cfg m (.chunk data ox2)).file_open = false) ∧
    ((log_priority.LOG_ERROR, LogMsg.cannotWrite path nm) ∈
      (step cfg m (.chunk data ox2)).log) ∧
    ((step cfg m (.chunk data ox2)).fs = fsAppend m.fs path ((m.buf ++ data).take p)) ∧
    ((step cfg m (.chunk data ox2)).state = .READ_FILE ∨
      IdleLike (step cfg m (.chunk data ox2))) ∧
    (m.total_rcv_file_bytes + (m.buf ++ data).length < m.rcv_file_size →
      (step cfg m (.chunk data ox2)).state = .READ_FILE ∧
      (step cfg m (.chunk data ox2)).buf = [] ∧
      (step cfg m (.chunk data ox2)).rcv_file_name = some nm ∧
      (step cfg m (.chunk data ox2)).rcv_file_size = m.rcv_file_size ∧
      (step cfg m (.chunk data ox2)).total_rcv_file_bytes =
        m.total_rcv_file_bytes + (m.buf ++ data).length) ∧
    (m.rcv_file_size ≤ m.total_rcv_file_bytes + (m.buf ++ data).length →
      IdleLike (step cfg m (.chunk data ox2)) ∧
      ((log_priority.LOG_INFO, LogMsg.fileDiscarded nm) ∈
        (step cfg m (.chunk data ox2)).log)) ∧
    (∀ rest : List Char, rest ≠ [] →
      m.total_rcv_file_bytes + (m.buf ++ data).length + rest.length = m.rcv_file_size →
      IdleLike (run cfg (step cfg m (.chunk data ox2)) (byteEvents rest)) ∧
      (run cfg (step cfg m (.chunk data ox2)) (byteEvents rest)).fs =
        fsAppend m.fs path ((m.buf ++ data).take p) ∧
      ((log_priority.LOG_INFO, LogMsg.fileDiscarded nm) ∈
        (run cfg (step cfg m (.chunk data ox2)) (byteEvents rest)).log)) ∧
    (∀ (rest : List Char) (us1 : List (List Char × List Char)) (nm2 : List Char)
        (us2 : List (List Char × List Char)) (ds : List Char)
        (us3 : List (List Char × List Char)) (n2 : Nat) (q1 : Char) (qrest : List Char),
      rest ≠ [] →
      m.total_rcv_file_bytes + (m.buf ++ data).length + rest.length = m.rcv_file_size →
      (∀ kv ∈ us1, UnkOk kv) → (∀ kv ∈ us2, UnkOk kv) → (∀ kv ∈ us3, UnkOk kv) →
      (∀ c ∈ nm2, filename_char_ok c = true) → nm2.length ≤ 126 →
      ds ≠ [] → ds.all isdigitC = true → ds.length ≤ 126 →
      digitsVal ds = n2 → (n2 : Int) ≤ LONG_MAX → 2 ≤ n2 → q1 ≠ '[' →
      (q1 :: qrest).length = n2 →
      fsLookup (fsAppend m.fs path ((m.buf ++ data).take p))
        (mkPath cfg.storage_dir nm2) = none →
      fsLookup (run cfg (run cfg (step cfg m (.chunk data ox2)) (byteEvents rest))
          (blockEvents us1 nm2 us2 ds us3 (q1 :: qrest))).fs
          (mkPath cfg.storage_dir nm2) = some (q1 :: qrest)) := by
  obtain ⟨oe, re, wf⟩ := ox2
  simp only at hox
  subst hox
  obtain ⟨st, fo, rnm, rsz, sfp, bf, req, tmo, tot, dml, lg, fss⟩ := m
  simp only at hst hfo hname hpath
  subst hst; subst hfo; subst hname; subst hpath
  by_cases hge : rsz ≤ tot + (bf.length + data.length)
  · have hstep : step cfg
        { state := .READ_FILE, file_open := true, rcv_file_name := some nm,
          rcv_file_size := rsz, storage_file_path := some path, buf := bf,
          requested_reading_len := req, timeout_infinite := tmo,
          total_rcv_file_bytes := tot, discard_message_logged := dml,
          log := lg, fs := fss }
        (.chunk data ⟨oe, re, some p⟩) =
        { state := .READ_START, file_open := false, rcv_file_name := none,
          rcv_file_size := 0, storage_file_path := none, buf := [],
          requested_reading_len := 1, timeout_infinite := true,
          total_rcv_file_bytes := tot + (bf.length + data.length),
          discard_message_logged := dml,
          log := lg ++ [(.LOG_ERROR, .cannotWrite path nm),
            (.LOG_INFO, .fileDiscarded nm)],
          fs := fsAppend fss path ((bf ++ data).take p) } := by
      simp [step, emit, hge]
    refine ⟨by simp [hstep], by simp [hstep], by simp [hstep],
      Or.inr (by rw [hstep]; exact ⟨rfl, rfl, rfl, rfl, rfl, rfl, rfl, rfl⟩),
      ?_, ?_, ?_, ?_⟩
    · intro hlt
      simp only [List.length_append] at hlt
      omega
    · intro _
      exact ⟨by rw [hstep]; exact ⟨rfl, rfl, rfl, rfl, rfl, rfl, rfl, rfl⟩,
        by simp [hstep]⟩
    · intro rest hne hsum
      simp only [List.length_append] at hsum
      have : rest.length = 0 := by omega
      simp [List.length_eq_zero] at this
      exact absurd this hne
    · intro rest us1 nm2 us2 ds us3 n2 q1 qrest hne hsum
      simp only [List.length_append] at hsum
      have : rest.length = 0 := by omega
      simp [List.length_eq_zero] at this
      exact absurd this hne
  · have hstep : step cfg
        { state := .READ_FILE, file_open := true, rcv_file_name := some nm,
          rcv_file_size := rsz, storage_file_path := some path, buf := bf,
          requested_reading_len := req, timeout_infinite := tmo,
          total_rcv_file_bytes := tot, discard_message_logged := dml,
          log := lg, fs := fss }
        (.chunk data ⟨oe, re, some p⟩) =
        { state := .READ_FILE, file_open := false, rcv_file_name := some nm,
          rcv_file_size := rsz, storage_file_path := some path, buf := [],
          requested_reading_len := min (rsz - (tot + (bf.length + data.length))) 128,
          timeout_infinite := tmo,
          total_rcv_file_bytes := tot + (bf.length + data.length),
          discard_message_logged := dml,
          log := lg ++ [(.LOG_ERROR, .cannotWrite path nm)],
          fs := fsAppend fss path ((bf ++ data).take p) } := by
      simp [step, emit, hge]
    have hrest_run : ∀ rest : List Char, rest ≠ [] →
        tot + (bf.length + data.length) + rest.length = rsz →
        run cfg
          { state := .READ_FILE, file_open := false, rcv_file_name := some nm,
            rcv_file_size := rsz, storage_file_path := some path, buf := [],
            requested_reading_len := min (rsz - (tot + (bf.length + data.length))) 128,
            timeout_infinite := tmo,
            total_rcv_file_bytes := tot + (bf.length + data.length),
            discard_message_logged := dml,
            log := lg ++ [(.LOG_ERROR, .cannotWrite path nm)],
            fs := fsAppend fss path ((bf ++ data).take p) }
          (byteEvents rest) =
        { state := .READ_START, file_open := false, rcv_file_name := none,
          rcv_file_size := 0, storage_file_path := none, buf := [],
          requested_reading_len := 1, timeout_infinite := true,
          total_rcv_file_bytes := rsz, discard_message_logged := dml,
          log := (lg ++ [(.LOG_ERROR, .cannotWrite path nm)]) ++
            [(.LOG_INFO, .fileDiscarded nm)],
          fs := fsAppend fss path ((bf ++ data).take p) } := by
      intro rest hne hsum
      rw [run_stream_closed cfg rest _ nm (tot + (bf.length + data.length)) [] rsz
        rfl rfl rfl rfl rfl rfl
        (by simp only [List.length_nil]
            omega)
        hne]
    refine ⟨by simp [hstep], by simp [hstep], by simp [hstep],
      Or.inl (by simp [hstep]), ?_, ?_, ?_, ?_⟩
    · intro _
      rw [hstep]
      exact ⟨rfl, rfl, rfl, rfl, by simp⟩
    · intro hge2
      simp only [List.length_append] at hge2
      omega
    · intro rest hne hsum
      simp only [List.length_append] at hsum
      rw [hstep, hrest_run rest hne hsum]
      exact ⟨⟨rfl, rfl, rfl, rfl, rfl, rfl, rfl, rfl⟩, rfl, by simp⟩
    · intro rest us1 nm2 us2 ds us3 n2 q1 qrest hne hsum hus1 hus2 hus3 hval hlen
        hdne hdall hdlen hdval hdb hn2 hq1 hqlen hfresh2
      simp only [List.length_append] at hsum
      rw [hstep, hrest_run rest hne hsum]
      rw [run_block_fresh cfg us1 nm2 us2 ds us3 n2 q1 qrest _
        ⟨rfl, rfl, rfl, rfl, rfl, rfl, rfl, rfl⟩ hus1 hus2 hus3 hval hlen
        hdne hdall hdlen hdval hdb hn2 hq1 hqlen hfresh2]
      exact fsLookup_fsSet_self _ _ _

/-- Sample machine streaming a 4-byte payload whose first byte is
already in `buf` and written. -/
def mFile7 : Machine :=
  { initM [(mkPath cfgR.storage_dir ['A'], ['a'])] with
    state := .READ_FILE
    file_open := true
    rcv_file_name := some ['A']
    rcv_file_size := 4
    storage_file_path := some (mkPath cfgR.storage_dir ['A'])
    total_rcv_file_bytes := 1
    requested_reading_len := 3
    timeout_infinite := false }

theorem recv_C7_write_failure_witness :
    mFile7.state = .READ_FILE ∧
    (step cfgR mFile7 (.chunk ['b'] ⟨false, false, some 0⟩)).file_open = false ∧
    (step cfgR mFile7 (.chunk ['b'] ⟨false, false, some 0⟩)).state = .READ_FILE ∧
    ((log_priority.LOG_ERROR,
        LogMsg.cannotWrite (mkPath cfgR.storage_dir ['A']) ['A']) ∈
      (step cfgR mFile7 (.chunk ['b'] ⟨false, false, some 0⟩)).log) := by
  have h := recv_C7_write_failure cfgR mFile7 ['b'] 0 ⟨false, false, some 0⟩
    ['A'] (mkPath cfgR.storage_dir ['A']) rfl rfl rfl rfl rfl
  exact ⟨rfl, h.1, (h.2.2.2.2.1 (by decide)).1, h.2.1⟩

end CyFlowRec

namespace CyFlowRec

/-! ### Claim C8: unknown tags -/

/-- C8 (amended).  For every tag whose name — read as a NUL-terminated C
string, i.e. the accumulated bytes before the first NUL — is neither
FILENAME nor FILESIZE, and whose name accumulation stays within the
buffer (at most 127 bytes), the dispatcher logs the name at debug level
and routes to `READ_UNKNOWN_VALUE`, which discards every byte up to the
next '>' and then proceeds to `READ_NEXT`; the pending filename, pending
size, destination state and stored files are untouched, and a whole list
of such tags interleaved anywhere between the mandatory tags only
appends its debug lines.  (A key whose bytes differ from FILENAME only
after an embedded NUL is treated as FILENAME, and a key of 128 bytes or
more is a "key name too long" error entering discard — see the
counterexample; hence the two amendments.) -/
theorem recv_C8_unknown_tags (cfg : Config) :
    (∀ (m : Machine) (rest : List Char) (ox : SysOracle),
      m.state = .READ_KEY →
      cstr m.buf ≠ "FILENAME".toList → cstr m.buf ≠ "FILESIZE".toList →
      step cfg m (.chunk (']' :: rest) ox) =
        { m with
          state := .READ_UNKNOWN_VALUE
          buf := []
          log := m.log ++ [(.LOG_DEBUG, .unknownKey (cstr m.buf))] }) ∧
    (∀ (m : Machine) (data : List Char) (ox : SysOracle),
      m.state = .READ_UNKNOWN_VALUE → data.headD nul ≠ '>' →
      step cfg m (.chunk data ox) = m) ∧
    (∀ (m : Machine) (rest : List Char) (ox : SysOracle),
      m.state = .READ_UNKNOWN_VALUE →
      step cfg m (.chunk ('>' :: rest) ox) = { m with state := .READ_NEXT }) ∧
    (∀ (us : List (List Char × List Char)) (m : Machine),
      m.state = .READ_NEXT → m.buf = [] → (∀ kv ∈ us, UnkOk kv) →
      run cfg m (byteEvents (unknownsWire us)) =
        { m with state := .READ_NEXT, buf := [], log := m.log ++ unkLogs us }) := by
  refine ⟨?_, ?_, ?_, ?_⟩
  · intro m rest ox hst hk1 hk2
    exact step_key_unknown cfg m rest ox hst hk1 hk2
  · intro m data ox hst hd
    simp only [List.headD_eq_head?_getD] at hd
    simp [step, hst, hd]
  · intro m rest ox hst
    exact step_unknown_close cfg m rest ox hst
  · intro us m hst hbuf hok
    exact run_unknown_tags cfg us m hst hbuf hok

set_option maxRecDepth 8192 in
/-- C8 counterexample: (a) the tag name made of the bytes
`FILENAME NUL X` is neither "FILENAME" nor "FILESIZE" as a byte string,
yet `strcmp` sees only the bytes before the NUL, so the code treats it
as the FILENAME key: after `[FILENAME\0X]` the machine is in
READ_FILE_NAME and no unknown-key debug line was logged (the log holds
only the start-receiving line); (b) a 128-byte tag name is not routed to
`ReadUnknownValue` but aborts the block: after '[' and 128 'K' bytes the
machine is discarding until silence. -/
theorem recv_C8_cex :
    ((run cfgR (initM [])
        (byteEvents ("[FILENAME".toList ++ [nul] ++ "X]".toList))).state =
        .READ_FILE_NAME ∧
      (run cfgR (initM [])
        (byteEvents ("[FILENAME".toList ++ [nul] ++ "X]".toList))).log =
        [(.LOG_INFO, .startReceiving)]) ∧
    ((run cfgR (initM [])
        (byteEvents ('[' :: List.replicate 128 'K'))).state =
        .READ_DISCARD_UNTIL_TIMEOUT ∧
      (.LOG_ERROR, .keyTooLong) ∈
        (run cfgR (initM []) (byteEvents ('[' :: List.replicate 128 'K'))).log) := by
  decide

/-- Sample machine that has accumulated the unknown key OPERATOR. -/
def mKeyUnk : Machine :=
  { initM [] with state := .READ_KEY, buf := "OPERATOR".toList, timeout_infinite := false }

theorem recv_C8_unknown_tags_witness :
    mKeyUnk.state = .READ_KEY ∧
    step cfgR mKeyUnk (.chunk [']'] okSys) =
      { mKeyUnk with
        state := .READ_UNKNOWN_VALUE
        buf := []
        log := mKeyUnk.log ++ [(.LOG_DEBUG, .unknownKey (cstr mKeyUnk.buf))] } :=
  ⟨rfl, (recv_C8_unknown_tags cfgR).1 mKeyUnk [] okSys rfl (by decide) (by decide)⟩

end CyFlowRec

namespace CyFlowRec

/-! ### Claim C9: read buffer bounds -/

/-- State-indexed buffer invariant of the receive loop: in the
byte-at-a-time states the requested length is 1 and at most 127 bytes
are accumulated; while discarding, the buffer is logically empty and
whole-buffer reads are requested; while streaming payload, accumulated
plus requested bytes never exceed the capacity. -/
abbrev bufInv (m : Machine) : Prop :=
  match m.state with
  | .READ_FILE => m.buf.length + m.requested_reading_len ≤ 128
  | .READ_DISCARD_UNTIL_TIMEOUT => m.buf = [] ∧ m.requested_reading_len = 128
  | _ => m.requested_reading_len = 1 ∧ m.buf.length ≤ 127

/-- C9.  The read buffer is never accessed out of bounds: `bufInv` holds
at loop entry and is preserved by every realizable iteration, and it
implies that at every `read_timeout` call the accumulated length plus
the requested read length is at most the 128-byte capacity
(`buf + buf_data_len` with `requested_reading_len` bytes stays inside
`char buf[128]`).  Token accumulation reaching the capacity in the key
or value states is a recoverable protocol error: the 128th byte triggers
a logged error, a buffer reset and entry into
READ_DISCARD_UNTIL_TIMEOUT (cyflowrec.c:208-226, 302-309, 427-428). -/
theorem recv_C9_buffer_bounds (cfg : Config) :
    (∀ fs0 : List (List Char × List Char), bufInv (initM fs0)) ∧
    (∀ (m : Machine) (ev : Event), eventValid m ev → bufInv m → bufInv (step cfg m ev)) ∧
    (∀ m : Machine, bufInv m → m.buf.length + m.requested_reading_len ≤ 128) ∧
    (∀ (m : Machine) (c : Char) (rest : List Char) (ox : SysOracle),
      m.state = .READ_KEY → m.buf.length = 127 → c ≠ ']' →
      step cfg m (.chunk (c :: rest) ox) = toDiscard (emit m .LOG_ERROR .keyTooLong)) ∧
    (∀ (m : Machine) (c : Char) (rest : List Char) (ox : SysOracle),
      m.state = .READ_FILE_NAME → m.buf.length = 127 → c ≠ '>' →
      step cfg m (.chunk (c :: rest) ox) =
        toDiscard (emit m .LOG_ERROR .filenameTooLong)) ∧
    (∀ (m : Machine) (c : Char) (rest : List Char) (ox : SysOracle),
      m.state = .READ_FILE_SIZE → m.buf.length = 127 → c ≠ '>' →
      step cfg m (.chunk (c :: rest) ox) =
        toDiscard (emit m .LOG_ERROR .filesizeTooLong)) := by
  refine ⟨?_, ?_, ?_, ?_, ?_, ?_⟩
  · intro fs0
    exact ⟨rfl, Nat.zero_le 127⟩
  · intro m ev _ hinv
    obtain ⟨st, fo, rnm, rsz, sfp, bf, req, tmo, tot, dml, lg, fss⟩ := m
    cases ev with
    | timeout =>
        rw [step_timeout_spec]
        exact ⟨rfl, Nat.zero_le 127⟩
    | chunk data ox =>
        cases st <;>
          simp only [step, emit, toDiscard, openDest, payloadReq] <;>
          (repeat' split) <;>
          (try simp_all [bufInv, List.length_append, List.length_take]) <;>
          (try omega)
  · intro m hinv
    obtain ⟨st, fo, rnm, rsz, sfp, bf, req, tmo, tot, dml, lg, fss⟩ := m
    cases st <;> simp_all [bufInv]
  · intro m c rest ox hst hlen hc
    have h127 : 127 ≤ m.buf.length := le_of_eq hlen.symm
    simp [step, hst, hc, h127, emit, toDiscard]
  · intro m c rest ox hst hlen hc
    have h127 : 127 ≤ m.buf.length := le_of_eq hlen.symm
    simp [step, hst, hc, h127, emit, toDiscard]
  · intro m c rest ox hst hlen hc
    have h127 : 127 ≤ m.buf.length := le_of_eq hlen.symm
    simp [step, hst, hc, h127, emit, toDiscard]

end CyFlowRec

namespace CyFlowRec

theorem recv_C9_buffer_bounds_witness :
    bufInv (initM []) ∧
    bufInv (step cfgR (initM []) (.chunk ['['] okSys)) ∧
    (initM []).buf.length + (initM []).requested_reading_len ≤ 128 :=
  ⟨⟨rfl, by decide⟩,
   (recv_C9_buffer_bounds cfgR).2.1 (initM []) (.chunk ['['] okSys)
     ⟨by decide, by decide⟩ ⟨rfl, by decide⟩,
   (recv_C9_buffer_bounds cfgR).2.2.1 (initM []) ⟨rfl, by decide⟩⟩

/-! ### Claim C10: handle/session lifecycle invariant -/

/-- Session lifecycle invariant: a destination handle is open only in
`READ_FILE`, and in `READ_START` the whole session (handle, pending
filename, declared size, destination path) is released and reset. -/
abbrev sessInv (m : Machine) : Prop :=
  (m.file_open = true → m.state = .READ_FILE) ∧
  (m.state = .READ_START → m.file_open = false ∧ m.rcv_file_name = none ∧
    m.rcv_file_size = 0 ∧ m.storage_file_path = none)

/-- C10.  At the top of every loop iteration a destination handle is
open only while the state is `READ_FILE`: the invariant `sessInv` holds
at loop entry and is preserved by every iteration, so on every
transition back to `READ_START` — successful completion or silence
timeout — the handle has been closed and the pending filename, declared
size and destination path have been released and reset; and the cleanup
run on the fatal-error loop exit closes the handle and releases the
filename and path as well (cyflowrec.c:203-224, 236-248, 455-475,
489-498). -/
theorem recv_C10_session_lifecycle (cfg : Config) :
    (∀ fs0 : List (List Char × List Char), sessInv (initM fs0)) ∧
    (∀ (m : Machine) (ev : Event), eventValid m ev → sessInv m → sessInv (step cfg m ev)) ∧
    (∀ m : Machine, (exit_cleanup m).file_open = false ∧
      (exit_cleanup m).rcv_file_name = none ∧
      (exit_cleanup m).storage_file_path = none) := by
  refine ⟨?_, ?_, ?_⟩
  · intro fs0
    exact ⟨fun h => Bool.noConfusion h, fun _ => ⟨rfl, rfl, rfl, rfl⟩⟩
  · intro m ev _ hinv
    obtain ⟨st, fo, rnm, rsz, sfp, bf, req, tmo, tot, dml, lg, fss⟩ := m
    cases ev with
    | timeout =>
        rw [step_timeout_spec]
        exact ⟨fun h => Bool.noConfusion h, fun _ => ⟨rfl, rfl, rfl, rfl⟩⟩
    | chunk data ox =>
        cases st <;>
          simp only [step, emit, toDiscard, openDest, payloadReq] <;>
          (repeat' split) <;>
          simp_all [sessInv]
  · intro m
    exact ⟨rfl, rfl, rfl⟩

theorem recv_C10_session_lifecycle_witness :
    sessInv (initM []) ∧
    sessInv (step cfgR (initM []) (.chunk ['['] okSys)) ∧
    (exit_cleanup (initM [])).file_open = false :=
  ⟨⟨fun h => Bool.noConfusion h, fun _ => ⟨rfl, rfl, rfl, rfl⟩⟩,
   (recv_C10_session_lifecycle cfgR).2.1 (initM []) (.chunk ['['] okSys)
     ⟨by decide, by decide⟩
     ⟨fun h => Bool.noConfusion h, fun _ => ⟨rfl, rfl, rfl, rfl⟩⟩,
   ((recv_C10_session_lifecycle cfgR).2.2 (initM [])).1⟩

end CyFlowRec
